import Mathlib

/-!
# InfluxDB exporter of go-metrics: `influxdb/influxdb.go`

A shallow embedding of `send` (and of the closure it passes to `Registry.Each`)
and of `Influxdb`, together with the environment they talk to:

* `time.Now()` is a clock that hands out one reading per call;
* every instrument with a `Snapshot()` method is a small state machine that
  hands out one snapshot per call and counts the calls;
* the write client records every batch passed to `Write` and answers with an
  outcome (nil or an error);
* `log.Println` appends to a log;
* `url.Parse` and `client.NewClient` are parameters that return a value or an
  error, and `time.Tick(d)` shows through the number of ticks it delivers.

Indexing a slice out of range panics; the embedding returns `Except Panic`.
-/

namespace Influxdb

/-! ## Values -/

/-- Carrier of Go `float64` values.  The exporter never computes with floats,
it only passes them from a snapshot into a field map, so a value is identified
with the decimal it denotes. -/
abbrev Float64 := Rat

/-- A `time.Time` instant, as the nanoseconds elapsed since the zero instant
(January 1, year 1, 00:00:00 UTC). -/
structure Time where
  nanos : Int
deriving DecidableEq, Repr

/-- The zero value `time.Time{}`, which a struct literal leaves in a field it
does not mention. -/
def Time.zero : Time := ⟨0⟩

/-- What an `interface{}` field value of a point holds in this program. -/
inductive Value where
  | int64 (v : Int)
  | float64 (v : Float64)
  | time (t : Time)
deriving DecidableEq, Repr

/-- The map type `m` (`map[string]interface{}`), as the key/value pairs of the
map literal; the keys of every literal in the source are pairwise distinct. -/
abbrev Fields := List (String × Value)

/-- Keys of a field map. -/
def Fields.keys (m : Fields) : List String := m.map Prod.fst

/-- Lookup `m[k]`. -/
def Fields.get (m : Fields) (k : String) : Option Value :=
  (m.find? (fun kv => kv.1 == k)).map Prod.snd

/-- The `client.Point` fields the exporter sets. -/
structure Point where
  Name : String
  Timestamp : Time := Time.zero
  Fields : Fields
deriving DecidableEq, Repr

/-- The `client.BatchPoints` fields the exporter sets. -/
structure BatchPoints where
  Points : List Point
  Database : String
  Precision : String
deriving DecidableEq, Repr

/-- Run-time panics of the embedded code. -/
inductive Panic where
  | indexOutOfRange (index length : Nat)
deriving DecidableEq, Repr

/-- Slice indexing `ps[i]`. -/
def index (ps : List Float64) (i : Nat) : Except Panic Float64 :=
  match ps.get? i with
  | some v => .ok v
  | none => .error (.indexOutOfRange i ps.length)

/-! ## Instruments -/

/-- Read-only histogram snapshot (`metrics.Histogram` as returned by
`Snapshot()`), with the result types the go-metrics interface declares:
`Count`, `Min` and `Max` return `int64`, `Mean` and `StdDev` return `float64`,
`Percentiles` takes and returns a `[]float64`. -/
structure HistogramSnapshot where
  Count : Int
  Min : Int
  Max : Int
  Mean : Float64
  StdDev : Float64
  Percentiles : List Float64 → List Float64

/-- Read-only meter snapshot: `Count` returns `int64`, the four rates return
`float64`. -/
structure MeterSnapshot where
  Count : Int
  Rate1 : Float64
  Rate5 : Float64
  Rate15 : Float64
  RateMean : Float64

/-- Read-only timer snapshot: `Count`, `Min` and `Max` return `int64`, `Mean`,
`StdDev` and the four rates return `float64`, `Percentiles` takes and returns
a `[]float64`. -/
structure TimerSnapshot where
  Count : Int
  Min : Int
  Max : Int
  Mean : Float64
  StdDev : Float64
  Percentiles : List Float64 → List Float64
  Rate1 : Float64
  Rate5 : Float64
  Rate15 : Float64
  RateMean : Float64

/-- A `metrics.Counter`: `Count()` reads the current count. -/
structure Counter where
  Count : Int

/-- A `metrics.Gauge`: `Value()` reads the current integer value. -/
structure Gauge where
  Value : Int

/-- A `metrics.GaugeFloat64`: `Value()` reads the current float value. -/
structure GaugeFloat64 where
  Value : Float64

/-- A live `metrics.Histogram`: the `k`-th call of `Snapshot()` (counting from
zero) returns `snapshots k`; `taken` counts the calls made so far. -/
structure Histogram where
  snapshots : Nat → HistogramSnapshot
  taken : Nat

/-- A live `metrics.Meter`. -/
structure Meter where
  snapshots : Nat → MeterSnapshot
  taken : Nat

/-- A live `metrics.Timer`. -/
structure Timer where
  snapshots : Nat → TimerSnapshot
  taken : Nat

/-- The call `metric.Snapshot()` on a histogram. -/
def Histogram.Snapshot (h : Histogram) : HistogramSnapshot × Histogram :=
  (h.snapshots h.taken, { h with taken := h.taken + 1 })

/-- The call `metric.Snapshot()` on a meter. -/
def Meter.Snapshot (m : Meter) : MeterSnapshot × Meter :=
  (m.snapshots m.taken, { m with taken := m.taken + 1 })

/-- The call `metric.Snapshot()` on a timer. -/
def Timer.Snapshot (t : Timer) : TimerSnapshot × Timer :=
  (t.snapshots t.taken, { t with taken := t.taken + 1 })

/-- What the registry hands to the visitor as `i interface{}`: one of the six
kinds the type switch knows, or any other value. -/
inductive Instrument where
  | Counter (metric : Counter)
  | Gauge (metric : Gauge)
  | GaugeFloat64 (metric : GaugeFloat64)
  | Histogram (metric : Histogram)
  | Meter (metric : Meter)
  | Timer (metric : Timer)
  | Other (tag : Nat)

/-- Whether the type switch of `send` has a case for the instrument. -/
def Instrument.supported : Instrument → Bool
  | .Other _ => false
  | _ => true

/-- One enumeration of a `metrics.Registry`: the (name, instrument) pairs in
the order `Each` visits them. -/
abbrev Registry := List (String × Instrument)

/-- Run `r.Each(f)`: call `f` on every pair in enumeration order.  The visitor
may update the state `σ` it closes over and the instrument it is handed. -/
def Registry.Each {σ : Type} (f : String → Instrument → σ → Except Panic (Instrument × σ)) :
    Registry → σ → Except Panic (Registry × σ)
  | [], s => .ok ([], s)
  | (name, i) :: rest, s =>
    match f name i s with
    | .error e => .error e
    | .ok (i1, s1) =>
      match Registry.Each f rest s1 with
      | .error e => .error e
      | .ok (rest1, s2) => .ok ((name, i1) :: rest1, s2)

/-! ## Environment -/

/-- The wall clock behind `time.Now()`: the `k`-th call returns `readings k`. -/
structure Clock where
  readings : Nat → Time
  reads : Nat

/-- The call `time.Now()`. -/
def Clock.Now (c : Clock) : Time × Clock :=
  (c.readings c.reads, { c with reads := c.reads + 1 })

/-- The write client: `outcome k b` is the error (or nil) of the `k`-th
`Write` call when it is handed batch `b`; `written` records the batches
handed to `Write` so far, oldest first. -/
structure Client where
  outcome : Nat → BatchPoints → Option String
  written : List BatchPoints

/-- The call `c.Write(bpoints)`; the response is discarded by the caller. -/
def Client.Write (c : Client) (bp : BatchPoints) : Option String × Client :=
  (c.outcome c.written.length bp, { c with written := c.written ++ [bp] })

/-- Process-wide state other than the registry and the client. -/
structure World where
  clock : Clock
  logged : List String

/-- The call `log.Println(err)`. -/
def World.Println (w : World) (err : String) : World :=
  { w with logged := w.logged ++ [err] }

/-! ## `send` -/

/-- The rank list `[]float64{0.5, 0.75, 0.95, 0.99, 0.999}` of the Histogram
and Timer cases. -/
def ranks : List Float64 := [0.5, 0.75, 0.95, 0.99, 0.999]

/-- The closure `func(name string, i interface{})` that `send` passes to
`r.Each`; it closes over the clock and over `series`. -/
def visit (name : String) (i : Instrument) (s : Clock × List Point) :
    Except Panic (Instrument × (Clock × List Point)) :=
  let (now, clock) := s.1.Now
  let series := s.2
  match i with
  | .Counter metric =>
    .ok (.Counter metric, clock, series ++ [{
      Timestamp := now
      Name := name ++ ".count"
      Fields := [
        ("count", .int64 metric.Count),
        ("time", .time now)] }])
  | .Gauge metric =>
    .ok (.Gauge metric, clock, series ++ [{
      Name := name ++ ".value"
      Timestamp := now
      Fields := [
        ("value", .int64 metric.Value)] }])
  | .GaugeFloat64 metric =>
    .ok (.GaugeFloat64 metric, clock, series ++ [{
      Name := name ++ ".value"
      Timestamp := now
      Fields := [
        ("value", .float64 metric.Value)] }])
  | .Histogram metric =>
    let (h, metric) := metric.Snapshot
    let ps := h.Percentiles ranks
    (index ps 0).bind fun ps0 =>
    (index ps 1).bind fun ps1 =>
    (index ps 2).bind fun ps2 =>
    (index ps 3).bind fun ps3 =>
    (index ps 4).bind fun ps4 =>
    .ok (.Histogram metric, clock, series ++ [{
      Name := name ++ ".histogram"
      Timestamp := now
      Fields := [
        ("count", .int64 h.Count),
        ("min", .int64 h.Min),
        ("max", .int64 h.Max),
        ("mean", .float64 h.Mean),
        ("std-dev", .float64 h.StdDev),
        ("50-percentile", .float64 ps0),
        ("75-percentile", .float64 ps1),
        ("95-percentile", .float64 ps2),
        ("99-percentile", .float64 ps3),
        ("999-percentile", .float64 ps4)] }])
  | .Meter metric =>
    let (snap, metric) := metric.Snapshot
    .ok (.Meter metric, clock, series ++ [{
      Name := name ++ ".meter"
      Timestamp := now
      Fields := [
        ("count", .int64 snap.Count),
        ("one-minute", .float64 snap.Rate1),
        ("five-minute", .float64 snap.Rate5),
        ("fifteen-minute", .float64 snap.Rate15),
        ("mean", .float64 snap.RateMean)] }])
  | .Timer metric =>
    let (h, metric) := metric.Snapshot
    let ps := h.Percentiles ranks
    (index ps 0).bind fun ps0 =>
    (index ps 1).bind fun ps1 =>
    (index ps 2).bind fun ps2 =>
    (index ps 3).bind fun ps3 =>
    (index ps 4).bind fun ps4 =>
    .ok (.Timer metric, clock, series ++ [{
      Name := name ++ ".timer"
      Fields := [
        ("count", .int64 h.Count),
        ("min", .int64 h.Min),
        ("max", .int64 h.Max),
        ("mean", .float64 h.Mean),
        ("std-dev", .float64 h.StdDev),
        ("50-percentile", .float64 ps0),
        ("75-percentile", .float64 ps1),
        ("95-percentile", .float64 ps2),
        ("99-percentile", .float64 ps3),
        ("999-percentile", .float64 ps4),
        ("one-minute", .float64 h.Rate1),
        ("five-minute", .float64 h.Rate5),
        ("fifteen-minute", .float64 h.Rate15),
        ("mean-rate", .float64 h.RateMean)] }])
  | .Other tag => .ok (.Other tag, clock, series)

/-- What one call of `send` leaves behind: the returned `error`, and the
registry, client and world after the call. -/
structure Sent where
  err : Option String
  registry : Registry
  client : Client
  world : World

/-- The function `send(r, database, c)`. -/
def send (r : Registry) (database : String) (c : Client) (w : World) : Except Panic Sent :=
  match r.Each visit (w.clock, []) with
  | .error e => .error e
  | .ok (r', clock, series) =>
    let bpoints : BatchPoints := {
      Points := series
      Database := database
      Precision := "ms" }
    let w := { w with clock := clock }
    match c.Write bpoints with
    | (some err, c') => .ok { err := none, registry := r', client := c', world := w.Println err }
    | (none, c') => .ok { err := none, registry := r', client := c', world := w }

/-! ## `Influxdb` -/

/-- The `Config` struct. -/
structure Config where
  Host : String
  Database : String
  Username : String
  Password : String
deriving DecidableEq, Repr

/-- A parsed `url.URL`. -/
structure URL where
  text : String
deriving DecidableEq, Repr

/-- The `client.Config` fields the exporter sets. -/
structure ClientConfig where
  URL : URL
  Username : String
  Password : String

/-- The two library calls of the setup, `url.Parse` and `client.NewClient`.
Their code is outside this program; each returns a value or an error. -/
structure Library where
  Parse : String → Except String URL
  NewClient : ClientConfig → Except String Client

/-- What `Influxdb` leaves behind: the registry, the write client if one was
constructed, and the world. -/
structure Exported where
  registry : Registry
  client : Option Client
  world : World

/-- The loop `for _ = range time.Tick(d) { ... }` of `Influxdb`, run over the
first `ticks` ticks the channel delivers.  Between two cycles the instruments
change only through their own snapshot streams. -/
def exportLoop : Nat → Registry → String → Client → World → Except Panic Exported
  | 0, r, _, c, w => .ok { registry := r, client := some c, world := w }
  | ticks + 1, r, database, c, w =>
    match send r database c w with
    | .error e => .error e
    | .ok res =>
      match res.err with
      | some err => exportLoop ticks res.registry database res.client (res.world.Println err)
      | none => exportLoop ticks res.registry database res.client res.world

/-- The function `Influxdb(r, d, config)`; the duration `d` shows only through
the number `ticks` of ticks that `time.Tick(d)` delivers. -/
def Influxdb (lib : Library) (r : Registry) (ticks : Nat) (config : Config) (w : World) :
    Except Panic Exported :=
  match lib.Parse config.Host with
  | .error err => .ok { registry := r, client := none, world := w.Println err }
  | .ok urlDB =>
    match lib.NewClient {
        URL := urlDB
        Username := config.Username
        Password := config.Password } with
    | .error err => .ok { registry := r, client := none, world := w.Println err }
    | .ok client => exportLoop ticks r config.Database client w

/-! ## Vocabulary of the statements -/

/-- The clock after `k` further calls of `time.Now()`. -/
def Clock.advance (c : Clock) (k : Nat) : Clock :=
  { c with reads := c.reads + k }

/-- The instant `now` captured at the `k`-th visit (counting from zero) of an
export cycle that starts with clock `c`. -/
def Clock.instant (c : Clock) (k : Nat) : Time :=
  c.readings (c.reads + k)

/-- The interface contract of `Percentiles` the Histogram and Timer cases rely
on: the next snapshot answers the five requested ranks with at least as many
values.  Instruments of the other kinds satisfy it trivially. -/
def Instrument.answersRanks : Instrument → Prop
  | .Histogram metric =>
    ranks.length ≤ ((metric.snapshots metric.taken).Percentiles ranks).length
  | .Timer metric =>
    ranks.length ≤ ((metric.snapshots metric.taken).Percentiles ranks).length
  | _ => True

instance : DecidablePred Instrument.answersRanks
  | .Counter _ => isTrue trivial
  | .Gauge _ => isTrue trivial
  | .GaugeFloat64 _ => isTrue trivial
  | .Histogram metric =>
    Nat.decLe ranks.length ((metric.snapshots metric.taken).Percentiles ranks).length
  | .Meter _ => isTrue trivial
  | .Timer metric =>
    Nat.decLe ranks.length ((metric.snapshots metric.taken).Percentiles ranks).length
  | .Other _ => isTrue trivial

/-- Every instrument of the enumeration satisfies `Instrument.answersRanks`. -/
def Registry.answersRanks (r : Registry) : Prop :=
  ∀ e ∈ r, e.2.answersRanks

instance (r : Registry) : Decidable r.answersRanks :=
  inferInstanceAs (Decidable (∀ e ∈ r, e.2.answersRanks))

/-- The points the visitor appends when it is run on one pair alone, starting
from an empty `series` (nothing when the visit panics). -/
def contribution (name : String) (i : Instrument) (clock : Clock) : List Point :=
  match visit name i (clock, []) with
  | .ok (_, _, series) => series
  | .error _ => []

/-- The instrument as the visitor leaves it (unchanged when the visit panics). -/
def visited (name : String) (i : Instrument) (clock : Clock) : Instrument :=
  match visit name i (clock, []) with
  | .ok (i', _, _) => i'
  | .error _ => i

/-- One call `send(r, database, c)` in world `w`, where `r` enumerates `pre`,
then the pair `(name, i)`, then `post`, returns nil, hands exactly one batch to
`Write`, and that batch holds exactly one point `p` for the pair `(name, i)`,
at its place: after one point per supported instrument of `pre` and before one
point per supported instrument of `post`. -/
def SendYields (pre : Registry) (name : String) (i : Instrument) (post : Registry)
    (database : String) (c : Client) (w : World) (p : Point) : Prop :=
  ∃ res before after,
    send (pre ++ (name, i) :: post) database c w = .ok res ∧
    res.err = none ∧
    res.client.written =
      c.written ++ [{ Points := before ++ p :: after, Database := database, Precision := "ms" }] ∧
    before.length = pre.countP (fun e => e.2.supported) ∧
    after.length = post.countP (fun e => e.2.supported)

/-- The points of one export cycle over enumeration `r` that starts with clock
`clock`: the contributions of the pairs, concatenated in enumeration order,
the `k`-th pair being visited after `k` earlier clock readings. -/
def cyclePoints (r : Registry) (clock : Clock) : List Point :=
  (r.enumFrom 0).flatMap fun p => contribution p.2.1 p.2.2 (clock.advance p.1)

/-- The registry as one export cycle leaves it. -/
def cycleRegistry (r : Registry) (clock : Clock) : Registry :=
  (r.enumFrom 0).map fun p => (p.2.1, visited p.2.1 p.2.2 (clock.advance p.1))

/-- The value is a Go integer (`int64`). -/
def Value.isInt : Value → Bool
  | .int64 _ => true
  | _ => false

/-- The value is a Go floating-point number (`float64`). -/
def Value.isFloat : Value → Bool
  | .float64 _ => true
  | _ => false

/-- The value is a `time.Time`. -/
def Value.isTime : Value → Bool
  | .time _ => true
  | _ => false

/-- The value is a number, integer or floating-point. -/
def Value.isNumeric (v : Value) : Bool :=
  v.isInt || v.isFloat

/-- The labels under which the exporter stores a float64 in every kind of
point that has them. -/
def floatLabels : List String :=
  ["mean", "std-dev", "50-percentile", "75-percentile", "95-percentile", "99-percentile",
   "999-percentile", "one-minute", "five-minute", "fifteen-minute", "mean-rate"]

/-- The labels under which the exporter stores an int64 in every kind of point
that has them. -/
def intLabels : List String := ["count", "min", "max"]

/-- The instrument after one visit of the exporter: a Histogram, Meter or
Timer has handed out one more snapshot, every other instrument is as before. -/
def Instrument.afterVisit : Instrument → Instrument
  | .Histogram metric => .Histogram ⟨metric.snapshots, metric.taken + 1⟩
  | .Meter metric => .Meter ⟨metric.snapshots, metric.taken + 1⟩
  | .Timer metric => .Timer ⟨metric.snapshots, metric.taken + 1⟩
  | i => i

/-- The registry after one export cycle that visited every pair once. -/
def Registry.afterCycle (r : Registry) : Registry :=
  r.map fun e => (e.1, e.2.afterVisit)

/-- The contract `Instrument.answersRanks`, for every snapshot the instrument
will ever hand out. -/
def Instrument.alwaysAnswersRanks : Instrument → Prop
  | .Histogram metric =>
    ∀ k, ranks.length ≤ ((metric.snapshots k).Percentiles ranks).length
  | .Timer metric =>
    ∀ k, ranks.length ≤ ((metric.snapshots k).Percentiles ranks).length
  | _ => True

/-- Every instrument of the enumeration satisfies `Instrument.alwaysAnswersRanks`. -/
def Registry.alwaysAnswersRanks (r : Registry) : Prop :=
  ∀ e ∈ r, e.2.alwaysAnswersRanks

/-- The batches of `n` consecutive export cycles over `r` that start with clock
`clock`, oldest first: each cycle enumerates the registry as the cycle before
left it, and reads the clock once per pair. -/
def cycleBatches : Nat → Registry → String → Clock → List BatchPoints
  | 0, _, _, _ => []
  | n + 1, r, database, clock =>
    { Points := cyclePoints r clock, Database := database, Precision := "ms" } ::
      cycleBatches n r.afterCycle database (clock.advance r.length)

/-- The readings of the instrument do not change from this visit to the next:
the snapshot a Histogram, Meter or Timer hands out next time equals the one it
hands out this time (the count of a Counter and the value of a Gauge are fixed
in this model). -/
def Instrument.steady : Instrument → Prop
  | .Histogram metric => metric.snapshots (metric.taken + 1) = metric.snapshots metric.taken
  | .Meter metric => metric.snapshots (metric.taken + 1) = metric.snapshots metric.taken
  | .Timer metric => metric.snapshots (metric.taken + 1) = metric.snapshots metric.taken
  | _ => True

/-- Every instrument of the enumeration is steady. -/
def Registry.steady (r : Registry) : Prop :=
  ∀ e ∈ r, e.2.steady

/-- A point without its timestamp and without the value it holds under the
label "time": its name, the keys of its field map, and the fields under every
other label. -/
def Point.untimed (p : Point) : String × List String × List (String × Value) :=
  (p.Name, p.Fields.keys, p.Fields.filter fun kv => kv.1 != "time")

/-- The five name suffixes of the type switch of `send`. -/
def suffixes : List String := [".count", ".value", ".histogram", ".meter", ".timer"]

/-- The precondition on `Percentiles`: the next snapshot of a Histogram or
Timer returns one value per requested rank, a list as long as its argument. -/
def Instrument.returnsOnePerRank : Instrument → Prop
  | .Histogram metric =>
    ∀ rs, ((metric.snapshots metric.taken).Percentiles rs).length = rs.length
  | .Timer metric =>
    ∀ rs, ((metric.snapshots metric.taken).Percentiles rs).length = rs.length
  | _ => True

/-! ## Sample data -/


/-- A clock whose readings advance by one nanosecond per call. -/
def sampleClock : Clock := ⟨fun k => ⟨1700000000000000000 + k⟩, 0⟩

/-- A world with `sampleClock` and an empty log. -/
def sampleWorld : World := ⟨sampleClock, []⟩

/-- A client whose every write succeeds. -/
def sampleClient : Client := ⟨fun _ _ => none, []⟩

/-- A histogram whose every snapshot answers rank `q` with `100 * q`. -/
def sampleHistogram : Histogram :=
  ⟨fun _ => ⟨3, 10, 90, 50, 40, fun rs => rs.map (fun q => 100 * q)⟩, 0⟩

/-- A timer whose every snapshot answers rank `q` with `1000 * q`. -/
def sampleTimer : Timer :=
  ⟨fun _ => ⟨8, 100, 900, 500, 400, fun rs => rs.map (fun q => 1000 * q), 2, 3, 4, 5⟩, 0⟩

/-- A meter with the readings of the end-to-end scenario. -/
def sampleMeter : Meter := ⟨fun _ => ⟨100, 1.5, 1.2, 1.0, 1.3⟩, 0⟩

/-- An enumeration with one instrument of every kind and two unsupported values. -/
def sampleRegistry : Registry :=
  [("requests", .Counter ⟨42⟩), ("health", .Other 0), ("queue_size", .Gauge ⟨7⟩),
   ("load", .GaugeFloat64 ⟨0.25⟩), ("sizes", .Histogram sampleHistogram),
   ("ewma", .Other 1), ("events", .Meter sampleMeter), ("latency", .Timer sampleTimer)]

/-- A histogram whose `k`-th snapshot differs from every other one. -/
def driftingHistogram : Histogram :=
  ⟨fun k => ⟨3 + k, 10 - k, 90 + k, 50 + k, 40 + k, fun rs => rs.map (fun q => 100 * q + k)⟩, 2⟩

/-- A timer whose `k`-th snapshot differs from every other one. -/
def driftingTimer : Timer :=
  ⟨fun k => ⟨8 + k, 100 - k, 900 + k, 500 + k, 400 + k, fun rs => rs.map (fun q => 1000 * q + k),
    2 + k, 3 + k, 4 + k, 5 + k⟩, 1⟩

/-- A client whose every write fails. -/
def failingClient : Client := ⟨fun _ _ => some "write failed", []⟩

/-- A library whose `url.Parse` rejects the empty host and whose
`client.NewClient` rejects the empty user name. -/
def sampleLibrary : Library :=
  { Parse := fun host => if host = "" then .error "empty url" else .ok ⟨host⟩
    NewClient := fun cfg =>
      if cfg.Username = "" then .error "no user" else .ok sampleClient }

/-! ## Lemmas on the visitor and on `Each` -/

theorem exists_five_of_length {α : Type} (l : List α) (h : 5 ≤ l.length) :
    ∃ a b c d e rest, l = a :: b :: c :: d :: e :: rest := by
  match l, h with
  | a :: b :: c :: d :: e :: rest, _ => exact ⟨a, b, c, d, e, rest, rfl⟩

theorem visit_eq (name : String) (i : Instrument) (clock : Clock) (series : List Point)
    (hi : i.answersRanks) :
    visit name i (clock, series) =
      .ok (visited name i clock, clock.advance 1, series ++ contribution name i clock) := by
  cases i with
  | Histogram metric =>
    obtain ⟨a, b, c, d, e, rest, hps⟩ := exists_five_of_length ((metric.snapshots metric.taken).Percentiles ranks) hi
    simp [visit, visited, contribution, Histogram.Snapshot, Clock.Now, Clock.advance, hps,
      index, Except.bind]
  | Timer metric =>
    obtain ⟨a, b, c, d, e, rest, hps⟩ := exists_five_of_length ((metric.snapshots metric.taken).Percentiles ranks) hi
    simp [visit, visited, contribution, Timer.Snapshot, Clock.Now, Clock.advance, hps,
      index, Except.bind]
  | _ => simp [visit, visited, contribution, Meter.Snapshot, Clock.Now, Clock.advance]

theorem contribution_length (name : String) (i : Instrument) (clock : Clock)
    (hi : i.answersRanks) :
    (contribution name i clock).length = if i.supported then 1 else 0 := by
  cases i with
  | Histogram metric =>
    obtain ⟨a, b, c, d, e, rest, hps⟩ :=
      exists_five_of_length ((metric.snapshots metric.taken).Percentiles ranks) hi
    simp [visit, contribution, Histogram.Snapshot, Clock.Now, hps, index, Except.bind,
      Instrument.supported]
  | Timer metric =>
    obtain ⟨a, b, c, d, e, rest, hps⟩ :=
      exists_five_of_length ((metric.snapshots metric.taken).Percentiles ranks) hi
    simp [visit, contribution, Timer.Snapshot, Clock.Now, hps, index, Except.bind,
      Instrument.supported]
  | _ => simp [visit, contribution, Meter.Snapshot, Clock.Now, Instrument.supported]

theorem each_visit_from (readings : Nat → Time) (base : Nat) (r : Registry)
    (hr : r.answersRanks) (n : Nat) (series : List Point) :
    Registry.Each visit r (⟨readings, base + n⟩, series) =
      .ok ((r.enumFrom n).map (fun p => (p.2.1, visited p.2.1 p.2.2 ⟨readings, base + p.1⟩)),
        ⟨readings, base + n + r.length⟩,
        series ++ (r.enumFrom n).flatMap
          (fun p => contribution p.2.1 p.2.2 ⟨readings, base + p.1⟩)) := by
  induction r generalizing n series with
  | nil => simp [Registry.Each]
  | cons e rest ih =>
    obtain ⟨name, i⟩ := e
    have hi : i.answersRanks := hr (name, i) (List.mem_cons_self _ _)
    have hrest : Registry.answersRanks rest := fun x hx => hr x (List.mem_cons_of_mem _ hx)
    have hstep := ih hrest (n + 1) (series ++ contribution name i ⟨readings, base + n⟩)
    rw [← Nat.add_assoc] at hstep
    simp only [Registry.Each, visit_eq name i ⟨readings, base + n⟩ series hi, Clock.advance,
      hstep, List.enumFrom_cons, List.map_cons, List.flatMap_cons, List.length_cons,
      List.append_assoc]
    congr 4
    omega

theorem each_visit_eq (r : Registry) (hr : r.answersRanks) (clock : Clock) :
    Registry.Each visit r (clock, []) =
      .ok (cycleRegistry r clock, clock.advance r.length, cyclePoints r clock) := by
  have h := each_visit_from clock.readings clock.reads r hr 0 []
  simpa [cycleRegistry, cyclePoints, Clock.advance] using h

theorem send_eq (r : Registry) (hr : r.answersRanks) (database : String) (c : Client)
    (w : World) :
    ∃ res, send r database c w = .ok res ∧
      res.err = none ∧
      res.registry = cycleRegistry r w.clock ∧
      res.client.outcome = c.outcome ∧
      res.client.written = c.written ++
        [{ Points := cyclePoints r w.clock, Database := database, Precision := "ms" }] ∧
      res.world.clock = w.clock.advance r.length := by
  unfold send
  rw [each_visit_eq r hr w.clock]
  simp only [Client.Write]
  split
  · rename_i err c' heq
    simp only [Prod.mk.injEq] at heq
    refine ⟨_, rfl, rfl, rfl, ?_, ?_, rfl⟩ <;> simp [← heq.2]
  · rename_i c' heq
    simp only [Prod.mk.injEq] at heq
    refine ⟨_, rfl, rfl, rfl, ?_, ?_, rfl⟩ <;> simp [← heq.2]

theorem flatMap_enumFrom_shift {α β : Type} (G : Nat → α → List β) (l : List α) (n : Nat) :
    (l.enumFrom n).flatMap (fun p => G p.1 p.2) =
      (l.enumFrom 0).flatMap (fun p => G (n + p.1) p.2) := by
  induction l generalizing n G with
  | nil => simp
  | cons a rest ih =>
    simp only [List.enumFrom_cons, List.flatMap_cons, Nat.add_zero, Nat.zero_add]
    rw [ih G (n + 1), ih (fun k x => G (n + k) x) 1]
    congr 2
    funext p
    congr 1
    omega

theorem cyclePoints_length (r : Registry) (hr : r.answersRanks) (clock : Clock) :
    (cyclePoints r clock).length = r.countP (fun e => e.2.supported) := by
  unfold cyclePoints
  generalize 0 = n
  induction r generalizing n with
  | nil => simp
  | cons e rest ih =>
    have hi : e.2.answersRanks := hr e (List.mem_cons_self _ _)
    have hrest : Registry.answersRanks rest := fun x hx => hr x (List.mem_cons_of_mem _ hx)
    simp only [List.enumFrom_cons, List.flatMap_cons, List.length_append, ih hrest,
      contribution_length _ _ _ hi, List.countP_cons]
    omega

theorem cyclePoints_split (pre : Registry) (name : String) (i : Instrument) (post : Registry)
    (clock : Clock) :
    cyclePoints (pre ++ (name, i) :: post) clock =
      cyclePoints pre clock ++ contribution name i (clock.advance pre.length) ++
        cyclePoints post (clock.advance (pre.length + 1)) := by
  unfold cyclePoints
  rw [List.enumFrom_append, List.flatMap_append, List.enumFrom_cons, List.flatMap_cons,
    flatMap_enumFrom_shift (fun k e => contribution e.1 e.2 (clock.advance k)) post]
  simp [Clock.advance, Nat.add_assoc]

theorem sendYields_of_contribution (pre : Registry) (name : String) (i : Instrument)
    (post : Registry) (database : String) (c : Client) (w : World) (p : Point)
    (hpre : pre.answersRanks) (hi : i.answersRanks) (hpost : post.answersRanks)
    (hp : contribution name i (w.clock.advance pre.length) = [p]) :
    SendYields pre name i post database c w p := by
  have hr : Registry.answersRanks (pre ++ (name, i) :: post) := by
    intro e he
    rcases List.mem_append.1 he with h | h
    · exact hpre e h
    · rcases List.mem_cons.1 h with h | h
      · subst h; exact hi
      · exact hpost e h
  obtain ⟨res, hres, herr, _, _, hw, _⟩ := send_eq _ hr database c w
  refine ⟨res, cyclePoints pre w.clock, cyclePoints post (w.clock.advance (pre.length + 1)),
    hres, herr, ?_, cyclePoints_length pre hpre _, cyclePoints_length post hpost _⟩
  rw [hw, cyclePoints_split, hp]
  simp

theorem cycleRegistry_at (pre : Registry) (name : String) (i : Instrument) (post : Registry)
    (clock : Clock) :
    (cycleRegistry (pre ++ (name, i) :: post) clock)[pre.length]? =
      some (name, visited name i (clock.advance pre.length)) := by
  have h : (pre ++ (name, i) :: post)[pre.length]? = some (name, i) := by
    rw [List.getElem?_append_right (Nat.le_refl _), Nat.sub_self, List.getElem?_cons_zero]
  rw [cycleRegistry, List.getElem?_map, List.getElem?_enumFrom, h]
  simp

theorem send_at (pre : Registry) (name : String) (i : Instrument) (post : Registry)
    (database : String) (c : Client) (w : World)
    (hpre : pre.answersRanks) (hi : i.answersRanks) (hpost : post.answersRanks) :
    ∃ res, send (pre ++ (name, i) :: post) database c w = .ok res ∧
      res.registry[pre.length]? = some (name, visited name i (w.clock.advance pre.length)) ∧
      res.client.written = c.written ++ [{
        Points := cyclePoints pre w.clock ++
          (contribution name i (w.clock.advance pre.length) ++
            cyclePoints post (w.clock.advance (pre.length + 1))),
        Database := database, Precision := "ms" }] ∧
      (cyclePoints pre w.clock).length = pre.countP (fun e => e.2.supported) ∧
      (cyclePoints post (w.clock.advance (pre.length + 1))).length =
        post.countP (fun e => e.2.supported) := by
  have hr : Registry.answersRanks (pre ++ (name, i) :: post) := by
    intro e he
    rcases List.mem_append.1 he with h | h
    · exact hpre e h
    · rcases List.mem_cons.1 h with h | h
      · subst h; exact hi
      · exact hpost e h
  obtain ⟨res, hres, _, hreg, _, hw, _⟩ := send_eq _ hr database c w
  refine ⟨res, hres, ?_, ?_, cyclePoints_length pre hpre _, cyclePoints_length post hpost _⟩
  · rw [hreg, cycleRegistry_at]
  · rw [hw, cyclePoints_split, List.append_assoc]

/-! ## The claims -/

/-- C1: for every registry enumeration whose histograms and timers answer the
five ranks, `send` returns nil and the one batch it hands to `Write` has as
many points as the enumeration has pairs with an instrument of a supported
kind; visiting an unsupported value appends nothing to `series` and does not
fail. -/
theorem send_point_count (r : Registry) (database : String) (c : Client) (w : World)
    (hr : r.answersRanks) :
    ∃ res bp, send r database c w = .ok res ∧ res.err = none ∧
      res.client.written = c.written ++ [bp] ∧
      bp.Points.length = r.countP (fun e => e.2.supported) ∧
      ∀ (name : String) (tag : Nat) (clock : Clock) (series : List Point),
        visit name (.Other tag) (clock, series) = .ok (.Other tag, clock.advance 1, series) := by
  obtain ⟨res, hres, herr, _, _, hw, _⟩ := send_eq r hr database c w
  refine ⟨res, _, hres, herr, hw, cyclePoints_length r hr w.clock, ?_⟩
  intro name tag clock series
  simp [visit, Clock.Now, Clock.advance]

/-- Witness of C1: the sample enumeration has eight pairs, six of them
supported, and its batch has six points. -/
theorem send_point_count_witness :
    sampleRegistry.answersRanks ∧
    ∃ res bp, send sampleRegistry "metrics" sampleClient sampleWorld = .ok res ∧
      res.err = none ∧
      res.client.written = sampleClient.written ++ [bp] ∧
      bp.Points.length = 6 ∧
      ∀ (name : String) (tag : Nat) (clock : Clock) (series : List Point),
        visit name (.Other tag) (clock, series) = .ok (.Other tag, clock.advance 1, series) :=
  ⟨by decide, send_point_count sampleRegistry "metrics" sampleClient sampleWorld (by decide)⟩

/-- C2: the points of the batch are in enumeration order.  The batch is the
concatenation, over the enumeration, of what the visit of each pair appends
(`contribution`); the visit of the `k`-th pair appends one point when its
instrument is supported and none otherwise; hence when pair `a` is enumerated
before pair `b`, the point of `a` comes before the point of `b`. -/
theorem send_points_in_enumeration_order (r : Registry) (database : String) (c : Client)
    (w : World) (hr : r.answersRanks) :
    ∃ res bp, send r database c w = .ok res ∧
      res.client.written = c.written ++ [bp] ∧
      bp.Points =
        (r.enumFrom 0).flatMap (fun p => contribution p.2.1 p.2.2 (w.clock.advance p.1)) ∧
      (∀ (k : Nat) (name : String) (i : Instrument), r[k]? = some (name, i) →
        (∀ series, ∃ i', visit name i (w.clock.advance k, series) =
          .ok (i', w.clock.advance (k + 1), series ++ contribution name i (w.clock.advance k))) ∧
        (contribution name i (w.clock.advance k)).length = if i.supported then 1 else 0) ∧
      (∀ (pre mid post : Registry) (a b : String × Instrument),
        r = pre ++ a :: (mid ++ b :: post) →
        ∃ x y z, bp.Points =
          x ++ contribution a.1 a.2 (w.clock.advance pre.length) ++ y ++
            contribution b.1 b.2 (w.clock.advance (pre.length + 1 + mid.length)) ++ z) := by
  obtain ⟨res, hres, _, _, _, hw, _⟩ := send_eq r hr database c w
  refine ⟨res, _, hres, hw, rfl, ?_, ?_⟩
  · intro k name i hk
    have hi : i.answersRanks := hr (name, i) (List.getElem?_mem hk)
    refine ⟨fun series => ⟨visited name i (w.clock.advance k), ?_⟩,
      contribution_length _ _ _ hi⟩
    rw [visit_eq name i _ series hi]
    simp [Clock.advance, Nat.add_assoc]
  · intro pre mid post a b hsplit
    subst hsplit
    refine ⟨cyclePoints pre w.clock, cyclePoints mid (w.clock.advance (pre.length + 1)),
      cyclePoints post (w.clock.advance (pre.length + 1 + mid.length + 1)), ?_⟩
    show cyclePoints _ _ = _
    rw [cyclePoints_split pre a.1 a.2, cyclePoints_split mid b.1 b.2]
    simp [Clock.advance, Nat.add_assoc]

/-- Witness of C2: the names of the points of the sample enumeration, in
enumeration order, the two unsupported values left out. -/
theorem send_points_in_enumeration_order_witness :
    sampleRegistry.answersRanks ∧
    ∃ res bp, send sampleRegistry "metrics" sampleClient sampleWorld = .ok res ∧
      res.client.written = sampleClient.written ++ [bp] ∧
      bp.Points.map Point.Name =
        ["requests.count", "queue_size.value", "load.value", "sizes.histogram",
         "events.meter", "latency.timer"] := by
  refine ⟨by decide, ?_⟩
  obtain ⟨res, bp, h1, h2, h3, -⟩ :=
    send_points_in_enumeration_order sampleRegistry "metrics" sampleClient sampleWorld
      (by decide)
  exact ⟨res, bp, h1, h2, by rw [h3]; rfl⟩

/-- C3, as stated, fails: the precision of the batch is the string "ms", not
the string "milliseconds" (here for the empty registry). -/
theorem send_precision_is_not_milliseconds :
    ∃ res bp, send [] "metrics" sampleClient sampleWorld = .ok res ∧
      res.client.written = [bp] ∧ bp.Database = "metrics" ∧
      bp.Precision ≠ "milliseconds" :=
  ⟨_, ⟨[], "metrics", "ms"⟩, rfl, rfl, rfl, by decide⟩

/-- C3, amended: for every registry content (the empty registry included) and
every configured database string, the batch `send` submits has the configured
database as its database identifier and the fixed string "ms" as its
precision, whatever points it holds. -/
theorem send_database_and_precision (r : Registry) (database : String) (c : Client)
    (w : World) (hr : r.answersRanks) :
    ∃ res bp, send r database c w = .ok res ∧
      res.client.written = c.written ++ [bp] ∧
      bp.Database = database ∧ bp.Precision = "ms" := by
  obtain ⟨res, hres, _, _, _, hw, _⟩ := send_eq r hr database c w
  exact ⟨res, _, hres, hw, rfl, rfl⟩

/-- Witness of C3 amended, on the empty registry. -/
theorem send_database_and_precision_witness :
    Registry.answersRanks [] ∧
    ∃ res bp, send [] "metrics" sampleClient sampleWorld = .ok res ∧
      res.client.written = sampleClient.written ++ [bp] ∧
      bp.Database = "metrics" ∧ bp.Precision = "ms" :=
  ⟨by decide, send_database_and_precision [] "metrics" sampleClient sampleWorld (by decide)⟩

/-- C4: when the registry holds only Counters, the batch has one point per
pair, and the `k`-th point belongs to the `k`-th pair `(name, metric)`: its
name is `name` followed by ".count", the keys of its field map are exactly
"count" and "time", "count" holds the counter's count and "time" holds the
instant captured at that visit. -/
theorem send_counters_only (r : Registry) (database : String) (c : Client) (w : World)
    (hr : ∀ e ∈ r, ∃ metric, e.2 = Instrument.Counter metric) :
    ∃ res bp, send r database c w = .ok res ∧
      res.client.written = c.written ++ [bp] ∧
      bp.Points.length = r.length ∧
      ∀ (k : Nat) (p : Point), bp.Points[k]? = some p →
        ∃ name metric, r[k]? = some (name, Instrument.Counter metric) ∧
          p.Name = name ++ ".count" ∧
          p.Fields.keys = ["count", "time"] ∧
          p.Fields.get "count" = some (.int64 metric.Count) ∧
          p.Fields.get "time" = some (.time (w.clock.instant k)) := by
  have hok : r.answersRanks := by
    intro e he
    obtain ⟨metric, hm⟩ := hr e he
    rw [hm]; trivial
  obtain ⟨res, hres, _, _, _, hw, _⟩ := send_eq r hok database c w
  have hcount : r.countP (fun e => e.2.supported) = r.length := by
    rw [List.countP_eq_length]
    intro e he
    obtain ⟨metric, hm⟩ := hr e he
    simp [hm, Instrument.supported]
  refine ⟨res, _, hres, hw, (cyclePoints_length r hok w.clock).trans hcount, ?_⟩
  intro k p hk
  have hsplit : ∀ (l : Registry) (n : Nat) (j : Nat) (q : Point),
      (∀ e ∈ l, ∃ metric, e.2 = Instrument.Counter metric) →
      ((l.enumFrom n).flatMap
        (fun x => contribution x.2.1 x.2.2 (w.clock.advance x.1)))[j]? = some q →
      ∃ name metric, l[j]? = some (name, Instrument.Counter metric) ∧
        q = { Name := name ++ ".count", Timestamp := w.clock.instant (n + j),
              Fields := [("count", .int64 metric.Count),
                         ("time", .time (w.clock.instant (n + j)))] } := by
    intro l
    induction l with
    | nil => intro n j q _ hj; simp at hj
    | cons e rest ih =>
      intro n j q hl hj
      obtain ⟨name, i⟩ := e
      obtain ⟨metric, hm⟩ := hl (name, i) (List.mem_cons_self _ _)
      simp only at hm
      subst hm
      have hc : contribution name (Instrument.Counter metric) (w.clock.advance n) =
          [{ Name := name ++ ".count", Timestamp := w.clock.instant n,
             Fields := [("count", .int64 metric.Count), ("time", .time (w.clock.instant n))] }] := by
        simp [contribution, visit, Clock.Now, Clock.advance, Clock.instant]
      rw [List.enumFrom_cons, List.flatMap_cons, hc] at hj
      cases j with
      | zero =>
        simp only [List.singleton_append, List.getElem?_cons_zero, Option.some.injEq] at hj
        exact ⟨name, metric, by simp, by simp [← hj]⟩
      | succ j =>
        simp only [List.singleton_append, List.getElem?_cons_succ] at hj
        obtain ⟨name', metric', h1, h2⟩ :=
          ih (n + 1) j q (fun e he => hl e (List.mem_cons_of_mem _ he)) hj
        refine ⟨name', metric', by simpa using h1, ?_⟩
        rw [h2]
        have : n + 1 + j = n + (j + 1) := by omega
        rw [this]
  obtain ⟨name, metric, h1, h2⟩ := hsplit r 0 k p hr hk
  subst h2
  refine ⟨name, metric, h1, rfl, rfl, ?_, ?_⟩ <;> simp [Fields.get]

/-- Witness of C4: two counters. -/
theorem send_counters_only_witness :
    (∀ e ∈ ([("requests", .Counter ⟨42⟩), ("errors", .Counter ⟨3⟩)] : Registry),
      ∃ metric, e.2 = Instrument.Counter metric) ∧
    ∃ res bp,
      send [("requests", .Counter ⟨42⟩), ("errors", .Counter ⟨3⟩)] "metrics" sampleClient
        sampleWorld = .ok res ∧
      res.client.written = sampleClient.written ++ [bp] ∧
      bp.Points.length = 2 ∧
      ∀ (k : Nat) (p : Point), bp.Points[k]? = some p →
        ∃ name metric,
          ([("requests", .Counter ⟨42⟩), ("errors", .Counter ⟨3⟩)] : Registry)[k]? =
            some (name, Instrument.Counter metric) ∧
          p.Name = name ++ ".count" ∧
          p.Fields.keys = ["count", "time"] ∧
          p.Fields.get "count" = some (.int64 metric.Count) ∧
          p.Fields.get "time" = some (.time (sampleWorld.clock.instant k)) :=
  ⟨by simp, send_counters_only _ "metrics" sampleClient sampleWorld (by simp)⟩

/-- C5: a Counter `n1` with count `c` followed by an integer Gauge `n2` with
value `v` gives a batch of exactly two points, `n1.count` with fields
`count = c` and `time = ` the instant of the first visit, and `n2.value` with
the single field `value = v`.  In general, wherever a Gauge or a GaugeFloat64
stands in the enumeration, it yields exactly one point, named with the suffix
".value", whose only field is "value" and holds the gauge's current value. -/
theorem send_counter_then_gauge :
    (∀ (n1 : String) (count : Int) (n2 : String) (v : Int) (database : String)
        (c : Client) (w : World),
      ∃ res, send [(n1, .Counter ⟨count⟩), (n2, .Gauge ⟨v⟩)] database c w = .ok res ∧
        res.err = none ∧
        res.client.written = c.written ++ [{
          Points := [
            { Name := n1 ++ ".count", Timestamp := w.clock.instant 0,
              Fields := [("count", .int64 count), ("time", .time (w.clock.instant 0))] },
            { Name := n2 ++ ".value", Timestamp := w.clock.instant 1,
              Fields := [("value", .int64 v)] }],
          Database := database, Precision := "ms" }]) ∧
    (∀ (pre post : Registry) (name : String) (metric : Gauge) (database : String)
        (c : Client) (w : World), pre.answersRanks → post.answersRanks →
      SendYields pre name (.Gauge metric) post database c w
        { Name := name ++ ".value", Timestamp := w.clock.instant pre.length,
          Fields := [("value", .int64 metric.Value)] }) ∧
    (∀ (pre post : Registry) (name : String) (metric : GaugeFloat64) (database : String)
        (c : Client) (w : World), pre.answersRanks → post.answersRanks →
      SendYields pre name (.GaugeFloat64 metric) post database c w
        { Name := name ++ ".value", Timestamp := w.clock.instant pre.length,
          Fields := [("value", .float64 metric.Value)] }) := by
  refine ⟨?_, ?_, ?_⟩
  · intro n1 count n2 v database c w
    have hr : Registry.answersRanks [(n1, .Counter ⟨count⟩), (n2, .Gauge ⟨v⟩)] := by
      intro e he
      simp only [List.mem_cons, List.mem_singleton, List.not_mem_nil, or_false] at he
      rcases he with h | h <;> subst h <;> trivial
    obtain ⟨res, hres, herr, _, _, hw, _⟩ := send_eq _ hr database c w
    refine ⟨res, hres, herr, ?_⟩
    rw [hw]
    simp [cyclePoints, contribution, visit, Clock.Now, Clock.advance, Clock.instant]
  · intro pre post name metric database c w hpre hpost
    refine sendYields_of_contribution pre name _ post database c w _ hpre ?_ hpost ?_
    · trivial
    · simp [contribution, visit, Clock.Now, Clock.advance, Clock.instant]
  · intro pre post name metric database c w hpre hpost
    refine sendYields_of_contribution pre name _ post database c w _ hpre ?_ hpost ?_
    · trivial
    · simp [contribution, visit, Clock.Now, Clock.advance, Clock.instant]

/-- Witness of C5: the end-to-end scenario, "requests" at 42 and "queue_size"
at 7, once as the two-pair registry and once as a Gauge after a Counter. -/
theorem send_counter_then_gauge_witness :
    (∃ res, send [("requests", .Counter ⟨42⟩), ("queue_size", .Gauge ⟨7⟩)] "metrics"
        sampleClient sampleWorld = .ok res ∧
      res.err = none ∧
      res.client.written = sampleClient.written ++ [{
        Points := [
          { Name := "requests" ++ ".count", Timestamp := sampleWorld.clock.instant 0,
            Fields := [("count", .int64 42), ("time", .time (sampleWorld.clock.instant 0))] },
          { Name := "queue_size" ++ ".value", Timestamp := sampleWorld.clock.instant 1,
            Fields := [("value", .int64 7)] }],
        Database := "metrics", Precision := "ms" }]) ∧
    Registry.answersRanks [("requests", .Counter ⟨42⟩)] ∧
    Registry.answersRanks [] ∧
    SendYields [("requests", .Counter ⟨42⟩)] "queue_size" (.Gauge ⟨7⟩) [] "metrics"
      sampleClient sampleWorld
      { Name := "queue_size" ++ ".value", Timestamp := sampleWorld.clock.instant 1,
        Fields := [("value", .int64 7)] } :=
  ⟨send_counter_then_gauge.1 "requests" 42 "queue_size" 7 "metrics" sampleClient sampleWorld,
   by decide, by decide,
   send_counter_then_gauge.2.1 [("requests", .Counter ⟨42⟩)] [] "queue_size" ⟨7⟩ "metrics"
     sampleClient sampleWorld (by decide) (by decide)⟩

/-- C6: wherever a Meter `name` stands in the enumeration, `send` yields
exactly one point for it, named `name` followed by ".meter", whose field map
is exactly count, one-minute, five-minute, fifteen-minute and mean, holding
the Count, Rate1, Rate5, Rate15 and RateMean of the meter's snapshot. -/
theorem send_meter (pre post : Registry) (name : String) (metric : Meter)
    (database : String) (c : Client) (w : World)
    (hpre : pre.answersRanks) (hpost : post.answersRanks) :
    SendYields pre name (.Meter metric) post database c w
      { Name := name ++ ".meter", Timestamp := w.clock.instant pre.length,
        Fields := [
          ("count", .int64 (metric.snapshots metric.taken).Count),
          ("one-minute", .float64 (metric.snapshots metric.taken).Rate1),
          ("five-minute", .float64 (metric.snapshots metric.taken).Rate5),
          ("fifteen-minute", .float64 (metric.snapshots metric.taken).Rate15),
          ("mean", .float64 (metric.snapshots metric.taken).RateMean)] } := by
  refine sendYields_of_contribution pre name _ post database c w _ hpre ?_ hpost ?_
  · trivial
  · simp [contribution, visit, Meter.Snapshot, Clock.Now, Clock.advance, Clock.instant]

/-- Witness of C6: the Meter "events" with count 100 and rates 1.5, 1.2, 1.0
and 1.3, alone in the registry. -/
theorem send_meter_witness :
    Registry.answersRanks [] ∧
    SendYields [] "events" (.Meter sampleMeter) [] "metrics" sampleClient sampleWorld
      { Name := "events" ++ ".meter", Timestamp := sampleWorld.clock.instant 0,
        Fields := [
          ("count", .int64 100),
          ("one-minute", .float64 1.5),
          ("five-minute", .float64 1.2),
          ("fifteen-minute", .float64 1.0),
          ("mean", .float64 1.3)] } :=
  ⟨by decide,
   send_meter [] [] "events" sampleMeter "metrics" sampleClient sampleWorld
     (by decide) (by decide)⟩

/-- C7: wherever a Histogram `name` stands in the enumeration, `send` yields
exactly one point for it, named `name` followed by ".histogram", whose field
map has exactly the ten labels count, min, max, mean, std-dev and 50-, 75-,
95-, 99-, 999-percentile; when the snapshot answers the five requested ranks
rank by rank through `percentile`, the label 50-percentile holds the
percentile at 0.5, 75-percentile at 0.75, 95-percentile at 0.95, 99-percentile
at 0.99 and 999-percentile at 0.999. -/
theorem send_histogram (pre post : Registry) (name : String) (metric : Histogram)
    (database : String) (c : Client) (w : World) (percentile : Float64 → Float64)
    (hpre : pre.answersRanks) (hpost : post.answersRanks)
    (hps : (metric.snapshots metric.taken).Percentiles ranks = ranks.map percentile) :
    SendYields pre name (.Histogram metric) post database c w
      { Name := name ++ ".histogram", Timestamp := w.clock.instant pre.length,
        Fields := [
          ("count", .int64 (metric.snapshots metric.taken).Count),
          ("min", .int64 (metric.snapshots metric.taken).Min),
          ("max", .int64 (metric.snapshots metric.taken).Max),
          ("mean", .float64 (metric.snapshots metric.taken).Mean),
          ("std-dev", .float64 (metric.snapshots metric.taken).StdDev),
          ("50-percentile", .float64 (percentile 0.5)),
          ("75-percentile", .float64 (percentile 0.75)),
          ("95-percentile", .float64 (percentile 0.95)),
          ("99-percentile", .float64 (percentile 0.99)),
          ("999-percentile", .float64 (percentile 0.999))] } := by
  refine sendYields_of_contribution pre name _ post database c w _ hpre ?_ hpost ?_
  · simp [Instrument.answersRanks, hps]
  · have hps' : (metric.snapshots metric.taken).Percentiles ranks =
        [percentile 0.5, percentile 0.75, percentile 0.95, percentile 0.99,
         percentile 0.999] := by
      rw [hps]; rfl
    simp [contribution, visit, Histogram.Snapshot, Clock.Now, Clock.advance, Clock.instant,
      hps', index, Except.bind]

/-- Witness of C7: the sample histogram, which answers rank `q` with `100 * q`,
between a counter and a meter. -/
theorem send_histogram_witness :
    Registry.answersRanks [("requests", .Counter ⟨42⟩)] ∧
    Registry.answersRanks [("events", .Meter sampleMeter)] ∧
    (sampleHistogram.snapshots sampleHistogram.taken).Percentiles ranks =
      ranks.map (fun q => 100 * q) ∧
    SendYields [("requests", .Counter ⟨42⟩)] "sizes" (.Histogram sampleHistogram)
      [("events", .Meter sampleMeter)] "metrics" sampleClient sampleWorld
      { Name := "sizes" ++ ".histogram", Timestamp := sampleWorld.clock.instant 1,
        Fields := [
          ("count", .int64 3),
          ("min", .int64 10),
          ("max", .int64 90),
          ("mean", .float64 50),
          ("std-dev", .float64 40),
          ("50-percentile", .float64 (100 * 0.5)),
          ("75-percentile", .float64 (100 * 0.75)),
          ("95-percentile", .float64 (100 * 0.95)),
          ("99-percentile", .float64 (100 * 0.99)),
          ("999-percentile", .float64 (100 * 0.999))] } :=
  ⟨by decide, by decide, rfl,
   send_histogram [("requests", .Counter ⟨42⟩)] [("events", .Meter sampleMeter)] "sizes"
     sampleHistogram "metrics" sampleClient sampleWorld (fun q => 100 * q)
     (by decide) (by decide) rfl⟩

/-- C8: wherever a Timer `name` stands in the enumeration, `send` yields
exactly one point for it, named `name` followed by ".timer", whose field map
has exactly fourteen labels: the ten of a Histogram, with the percentiles at
the same ranks, and one-minute, five-minute, fifteen-minute and mean-rate,
which hold Rate1, Rate5, Rate15 and RateMean of the snapshot; "mean" holds the
snapshot's Mean. -/
theorem send_timer (pre post : Registry) (name : String) (metric : Timer)
    (database : String) (c : Client) (w : World) (percentile : Float64 → Float64)
    (hpre : pre.answersRanks) (hpost : post.answersRanks)
    (hps : (metric.snapshots metric.taken).Percentiles ranks = ranks.map percentile) :
    ∃ timestamp, SendYields pre name (.Timer metric) post database c w
      { Name := name ++ ".timer", Timestamp := timestamp,
        Fields := [
          ("count", .int64 (metric.snapshots metric.taken).Count),
          ("min", .int64 (metric.snapshots metric.taken).Min),
          ("max", .int64 (metric.snapshots metric.taken).Max),
          ("mean", .float64 (metric.snapshots metric.taken).Mean),
          ("std-dev", .float64 (metric.snapshots metric.taken).StdDev),
          ("50-percentile", .float64 (percentile 0.5)),
          ("75-percentile", .float64 (percentile 0.75)),
          ("95-percentile", .float64 (percentile 0.95)),
          ("99-percentile", .float64 (percentile 0.99)),
          ("999-percentile", .float64 (percentile 0.999)),
          ("one-minute", .float64 (metric.snapshots metric.taken).Rate1),
          ("five-minute", .float64 (metric.snapshots metric.taken).Rate5),
          ("fifteen-minute", .float64 (metric.snapshots metric.taken).Rate15),
          ("mean-rate", .float64 (metric.snapshots metric.taken).RateMean)] } := by
  refine ⟨Time.zero, sendYields_of_contribution pre name _ post database c w _ hpre ?_ hpost ?_⟩
  · simp [Instrument.answersRanks, hps]
  · have hps' : (metric.snapshots metric.taken).Percentiles ranks =
        [percentile 0.5, percentile 0.75, percentile 0.95, percentile 0.99,
         percentile 0.999] := by
      rw [hps]; rfl
    simp [contribution, visit, Timer.Snapshot, Clock.Now, Clock.advance,
      hps', index, Except.bind]

/-- Witness of C8: the sample timer, which answers rank `q` with `1000 * q`,
after a histogram and before an unsupported value. -/
theorem send_timer_witness :
    Registry.answersRanks [("sizes", .Histogram sampleHistogram)] ∧
    Registry.answersRanks [("health", .Other 0)] ∧
    (sampleTimer.snapshots sampleTimer.taken).Percentiles ranks =
      ranks.map (fun q => 1000 * q) ∧
    ∃ timestamp, SendYields [("sizes", .Histogram sampleHistogram)] "latency"
      (.Timer sampleTimer) [("health", .Other 0)] "metrics" sampleClient sampleWorld
      { Name := "latency" ++ ".timer", Timestamp := timestamp,
        Fields := [
          ("count", .int64 8),
          ("min", .int64 100),
          ("max", .int64 900),
          ("mean", .float64 500),
          ("std-dev", .float64 400),
          ("50-percentile", .float64 (1000 * 0.5)),
          ("75-percentile", .float64 (1000 * 0.75)),
          ("95-percentile", .float64 (1000 * 0.95)),
          ("99-percentile", .float64 (1000 * 0.99)),
          ("999-percentile", .float64 (1000 * 0.999)),
          ("one-minute", .float64 2),
          ("five-minute", .float64 3),
          ("fifteen-minute", .float64 4),
          ("mean-rate", .float64 5)] } :=
  ⟨by decide, by decide, rfl,
   send_timer [("sizes", .Histogram sampleHistogram)] [("health", .Other 0)] "latency"
     sampleTimer "metrics" sampleClient sampleWorld (fun q => 1000 * q)
     (by decide) (by decide) rfl⟩

/-- C9: `send` takes the snapshot of a Histogram, and of a Timer, exactly once
per cycle, and computes every field of the point from that one snapshot.  The
instrument hands out snapshot number `taken` at the call and may hand out any
other snapshot at any later call: after `send` the instrument has handed out
exactly one more snapshot (`taken + 1`), and count, min, max, mean, std-dev,
the five percentiles (and for a Timer the four rates) are those of snapshot
number `taken`. -/
theorem send_reads_one_snapshot :
    (∀ (pre post : Registry) (name : String) (metric : Histogram) (database : String)
        (c : Client) (w : World) (percentile : Float64 → Float64),
      pre.answersRanks → post.answersRanks →
      (metric.snapshots metric.taken).Percentiles ranks = ranks.map percentile →
      ∃ res before after timestamp,
        send (pre ++ (name, .Histogram metric) :: post) database c w = .ok res ∧
        res.registry[pre.length]? =
          some (name, .Histogram ⟨metric.snapshots, metric.taken + 1⟩) ∧
        res.client.written = c.written ++ [{
          Points := before ++ {
            Name := name ++ ".histogram", Timestamp := timestamp,
            Fields := [
              ("count", .int64 (metric.snapshots metric.taken).Count),
              ("min", .int64 (metric.snapshots metric.taken).Min),
              ("max", .int64 (metric.snapshots metric.taken).Max),
              ("mean", .float64 (metric.snapshots metric.taken).Mean),
              ("std-dev", .float64 (metric.snapshots metric.taken).StdDev),
              ("50-percentile", .float64 (percentile 0.5)),
              ("75-percentile", .float64 (percentile 0.75)),
              ("95-percentile", .float64 (percentile 0.95)),
              ("99-percentile", .float64 (percentile 0.99)),
              ("999-percentile", .float64 (percentile 0.999))] } :: after,
          Database := database, Precision := "ms" }] ∧
        before.length = pre.countP (fun e => e.2.supported) ∧
        after.length = post.countP (fun e => e.2.supported)) ∧
    (∀ (pre post : Registry) (name : String) (metric : Timer) (database : String)
        (c : Client) (w : World) (percentile : Float64 → Float64),
      pre.answersRanks → post.answersRanks →
      (metric.snapshots metric.taken).Percentiles ranks = ranks.map percentile →
      ∃ res before after timestamp,
        send (pre ++ (name, .Timer metric) :: post) database c w = .ok res ∧
        res.registry[pre.length]? =
          some (name, .Timer ⟨metric.snapshots, metric.taken + 1⟩) ∧
        res.client.written = c.written ++ [{
          Points := before ++ {
            Name := name ++ ".timer", Timestamp := timestamp,
            Fields := [
              ("count", .int64 (metric.snapshots metric.taken).Count),
              ("min", .int64 (metric.snapshots metric.taken).Min),
              ("max", .int64 (metric.snapshots metric.taken).Max),
              ("mean", .float64 (metric.snapshots metric.taken).Mean),
              ("std-dev", .float64 (metric.snapshots metric.taken).StdDev),
              ("50-percentile", .float64 (percentile 0.5)),
              ("75-percentile", .float64 (percentile 0.75)),
              ("95-percentile", .float64 (percentile 0.95)),
              ("99-percentile", .float64 (percentile 0.99)),
              ("999-percentile", .float64 (percentile 0.999)),
              ("one-minute", .float64 (metric.snapshots metric.taken).Rate1),
              ("five-minute", .float64 (metric.snapshots metric.taken).Rate5),
              ("fifteen-minute", .float64 (metric.snapshots metric.taken).Rate15),
              ("mean-rate", .float64 (metric.snapshots metric.taken).RateMean)] } :: after,
          Database := database, Precision := "ms" }] ∧
        before.length = pre.countP (fun e => e.2.supported) ∧
        after.length = post.countP (fun e => e.2.supported)) := by
  constructor
  · intro pre post name metric database c w percentile hpre hpost hps
    have hps' : (metric.snapshots metric.taken).Percentiles ranks =
        [percentile 0.5, percentile 0.75, percentile 0.95, percentile 0.99,
         percentile 0.999] := by
      rw [hps]; rfl
    have hi : (Instrument.Histogram metric).answersRanks := by
      simp [Instrument.answersRanks, hps]
    obtain ⟨res, hres, hreg, hw, hb, ha⟩ :=
      send_at pre name (.Histogram metric) post database c w hpre hi hpost
    refine ⟨res, _, _, w.clock.instant pre.length, hres, ?_, ?_, hb, ha⟩
    · rw [hreg]
      simp [visited, visit, Histogram.Snapshot, Clock.Now, hps', index, Except.bind]
    · rw [hw]
      simp [contribution, visit, Histogram.Snapshot, Clock.Now, Clock.advance, Clock.instant,
        hps', index, Except.bind]
  · intro pre post name metric database c w percentile hpre hpost hps
    have hps' : (metric.snapshots metric.taken).Percentiles ranks =
        [percentile 0.5, percentile 0.75, percentile 0.95, percentile 0.99,
         percentile 0.999] := by
      rw [hps]; rfl
    have hi : (Instrument.Timer metric).answersRanks := by
      simp [Instrument.answersRanks, hps]
    obtain ⟨res, hres, hreg, hw, hb, ha⟩ :=
      send_at pre name (.Timer metric) post database c w hpre hi hpost
    refine ⟨res, _, _, Time.zero, hres, ?_, ?_, hb, ha⟩
    · rw [hreg]
      simp [visited, visit, Timer.Snapshot, Clock.Now, hps', index, Except.bind]
    · rw [hw]
      simp [contribution, visit, Timer.Snapshot, Clock.Now, Clock.advance,
        hps', index, Except.bind]

/-- Witness of C9: a histogram and a timer whose snapshots all differ; the
histogram has handed out two snapshots before the cycle and three after it,
and the fields are those of snapshot number two. -/
theorem send_reads_one_snapshot_witness :
    Registry.answersRanks [("requests", .Counter ⟨42⟩)] ∧
    Registry.answersRanks [("latency", .Timer driftingTimer)] ∧
    (driftingHistogram.snapshots 2).Percentiles ranks =
      ranks.map (fun q => 100 * q + ((2 : Nat) : Rat)) ∧
    ∃ res before after timestamp,
      send ([("requests", .Counter ⟨42⟩)] ++ ("sizes", .Histogram driftingHistogram) ::
        [("latency", .Timer driftingTimer)]) "metrics" sampleClient sampleWorld = .ok res ∧
      res.registry[1]? = some ("sizes", .Histogram ⟨driftingHistogram.snapshots, 3⟩) ∧
      res.client.written = sampleClient.written ++ [{
        Points := before ++ {
          Name := "sizes" ++ ".histogram", Timestamp := timestamp,
          Fields := [
            ("count", .int64 (driftingHistogram.snapshots 2).Count),
            ("min", .int64 (driftingHistogram.snapshots 2).Min),
            ("max", .int64 (driftingHistogram.snapshots 2).Max),
            ("mean", .float64 (driftingHistogram.snapshots 2).Mean),
            ("std-dev", .float64 (driftingHistogram.snapshots 2).StdDev),
            ("50-percentile", .float64 (100 * 0.5 + ((2 : Nat) : Rat))),
            ("75-percentile", .float64 (100 * 0.75 + ((2 : Nat) : Rat))),
            ("95-percentile", .float64 (100 * 0.95 + ((2 : Nat) : Rat))),
            ("99-percentile", .float64 (100 * 0.99 + ((2 : Nat) : Rat))),
            ("999-percentile", .float64 (100 * 0.999 + ((2 : Nat) : Rat)))] } :: after,
        Database := "metrics", Precision := "ms" }] ∧
      before.length = 1 ∧ after.length = 1 :=
  ⟨by decide, by decide, rfl,
   send_reads_one_snapshot.1 [("requests", .Counter ⟨42⟩)] [("latency", .Timer driftingTimer)]
     "sizes" driftingHistogram "metrics" sampleClient sampleWorld
     (fun q => 100 * q + ((2 : Nat) : Rat)) (by decide) (by decide) rfl⟩

/-- C10 fails on the Timer case: in a cycle over a Counter followed by a Timer,
the Counter's point carries the instant captured at its visit, while the
Timer's point carries the zero `time.Time`, which is not the instant captured
at the Timer's visit. -/
theorem send_timer_timestamp_is_zero :
    ∃ res bp,
      send [("requests", .Counter ⟨42⟩), ("latency", .Timer sampleTimer)] "metrics"
        sampleClient sampleWorld = .ok res ∧
      res.client.written = [bp] ∧
      bp.Points.map Point.Name = ["requests.count", "latency.timer"] ∧
      bp.Points.map Point.Timestamp = [sampleWorld.clock.instant 0, Time.zero] ∧
      sampleWorld.clock.instant 1 ≠ Time.zero :=
  ⟨_, _, rfl, rfl, rfl, rfl, by decide⟩

/-! ## Lemmas on the points of a cycle -/

theorem mem_cyclePoints (r : Registry) (clock : Clock) (p : Point)
    (hp : p ∈ cyclePoints r clock) :
    ∃ e ∈ r, ∃ k, p ∈ contribution e.1 e.2 (clock.advance k) := by
  unfold cyclePoints at hp
  obtain ⟨x, hx, hpx⟩ := List.mem_flatMap.1 hp
  obtain ⟨k, e⟩ := x
  exact ⟨e, (List.mem_enumFrom hx).2.2 ▸ List.getElem_mem _, k, hpx⟩

theorem contribution_fields (name : String) (i : Instrument) (clock : Clock)
    (hi : i.answersRanks) (p : Point) (hp : p ∈ contribution name i clock)
    (kv : String × Value) (hkv : kv ∈ p.Fields) :
    (kv.1 ∈ intLabels → kv.2.isInt = true) ∧
    (kv.1 ∈ floatLabels → kv.2.isFloat = true) ∧
    (kv.1 = "time" → kv.2.isTime = true) ∧
    (kv.1 = "value" → kv.2.isNumeric = true) ∧
    (kv.1 ∈ intLabels ∨ kv.1 ∈ floatLabels ∨ kv.1 = "time" ∨ kv.1 = "value") := by
  cases i with
  | Histogram metric =>
    obtain ⟨a, b, c, d, e, rest, hps⟩ :=
      exists_five_of_length ((metric.snapshots metric.taken).Percentiles ranks) hi
    simp [visit, contribution, Histogram.Snapshot, Clock.Now, hps, index, Except.bind] at hp
    subst hp
    simp only [List.mem_cons, List.mem_singleton, List.not_mem_nil, or_false] at hkv
    rcases hkv with h | h | h | h | h | h | h | h | h | h <;> subst h <;>
      simp [intLabels, floatLabels, Value.isInt, Value.isFloat, Value.isTime, Value.isNumeric]
  | Timer metric =>
    obtain ⟨a, b, c, d, e, rest, hps⟩ :=
      exists_five_of_length ((metric.snapshots metric.taken).Percentiles ranks) hi
    simp [visit, contribution, Timer.Snapshot, Clock.Now, hps, index, Except.bind] at hp
    subst hp
    simp only [List.mem_cons, List.mem_singleton, List.not_mem_nil, or_false] at hkv
    rcases hkv with h | h | h | h | h | h | h | h | h | h | h | h | h | h <;> subst h <;>
      simp [intLabels, floatLabels, Value.isInt, Value.isFloat, Value.isTime, Value.isNumeric]
  | Counter metric =>
    simp [visit, contribution, Clock.Now] at hp
    subst hp
    simp only [List.mem_cons, List.mem_singleton, List.not_mem_nil, or_false] at hkv
    rcases hkv with h | h <;> subst h <;>
      simp [intLabels, floatLabels, Value.isInt, Value.isFloat, Value.isTime, Value.isNumeric]
  | Gauge metric =>
    simp [visit, contribution, Clock.Now] at hp
    subst hp
    simp only [List.mem_cons, List.mem_singleton, List.not_mem_nil, or_false] at hkv
    subst hkv
    simp [intLabels, floatLabels, Value.isInt, Value.isFloat, Value.isTime, Value.isNumeric]
  | GaugeFloat64 metric =>
    simp [visit, contribution, Clock.Now] at hp
    subst hp
    simp only [List.mem_cons, List.mem_singleton, List.not_mem_nil, or_false] at hkv
    subst hkv
    simp [intLabels, floatLabels, Value.isInt, Value.isFloat, Value.isTime, Value.isNumeric]
  | Meter metric =>
    simp [visit, contribution, Meter.Snapshot, Clock.Now] at hp
    subst hp
    simp only [List.mem_cons, List.mem_singleton, List.not_mem_nil, or_false] at hkv
    rcases hkv with h | h | h | h | h <;> subst h <;>
      simp [intLabels, floatLabels, Value.isInt, Value.isFloat, Value.isTime, Value.isNumeric]
  | Other tag =>
    simp [visit, contribution, Clock.Now] at hp

/-! ## The claims, continued -/

/-- C11, as stated, fails: in the batch of a Counter followed by an integer
Gauge, the Counter's point holds under "time" a `time.Time`, which is not a
number, and the Gauge's point holds under "value" an integer, not a
floating-point number. -/
theorem send_fields_not_all_numeric :
    ∃ res bp,
      send [("requests", .Counter ⟨42⟩), ("queue_size", .Gauge ⟨7⟩)] "metrics"
        sampleClient sampleWorld = .ok res ∧
      res.client.written = [bp] ∧
      (∃ p ∈ bp.Points, ∃ kv ∈ p.Fields, kv.1 = "time" ∧ kv.2.isNumeric = false) ∧
      (∃ p ∈ bp.Points, ∃ kv ∈ p.Fields,
        kv.1 = "value" ∧ kv.1 ≠ "count" ∧ kv.2.isFloat = false) :=
  ⟨_, _, rfl, rfl, by decide, by decide⟩

/-- C11, amended: in every point that `send` produces, every label is one of
count, min, max, the float labels, time and value; the value under count, min
and max is an integer; the value under mean, std-dev, the percentile labels
and the rate labels is floating-point; the value under time is a `time.Time`
(not a number); the value under value is a number, an integer for a Gauge and
floating-point for a GaugeFloat64. -/
theorem send_field_types (r : Registry) (database : String) (c : Client) (w : World)
    (hr : r.answersRanks) :
    ∃ res bp, send r database c w = .ok res ∧
      res.client.written = c.written ++ [bp] ∧
      (∀ p ∈ bp.Points, ∀ kv ∈ p.Fields,
        (kv.1 ∈ intLabels → kv.2.isInt = true) ∧
        (kv.1 ∈ floatLabels → kv.2.isFloat = true) ∧
        (kv.1 = "time" → kv.2.isTime = true) ∧
        (kv.1 = "value" → kv.2.isNumeric = true) ∧
        (kv.1 ∈ intLabels ∨ kv.1 ∈ floatLabels ∨ kv.1 = "time" ∨ kv.1 = "value")) ∧
      (∀ (name : String) (metric : Gauge) (clock : Clock),
        ∀ p ∈ contribution name (.Gauge metric) clock,
          p.Fields = [("value", .int64 metric.Value)]) ∧
      (∀ (name : String) (metric : GaugeFloat64) (clock : Clock),
        ∀ p ∈ contribution name (.GaugeFloat64 metric) clock,
          p.Fields = [("value", .float64 metric.Value)]) := by
  obtain ⟨res, hres, _, _, _, hw, _⟩ := send_eq r hr database c w
  refine ⟨res, _, hres, hw, ?_, ?_, ?_⟩
  · intro p hp kv hkv
    obtain ⟨e, he, k, hpe⟩ := mem_cyclePoints r w.clock p hp
    exact contribution_fields e.1 e.2 _ (hr e he) p hpe kv hkv
  · intro name metric clock p hp
    simp [visit, contribution, Clock.Now] at hp
    subst hp
    rfl
  · intro name metric clock p hp
    simp [visit, contribution, Clock.Now] at hp
    subst hp
    rfl

/-- Witness of C11 amended, on the sample enumeration. -/
theorem send_field_types_witness :
    sampleRegistry.answersRanks ∧
    ∃ res bp, send sampleRegistry "metrics" sampleClient sampleWorld = .ok res ∧
      res.client.written = sampleClient.written ++ [bp] ∧
      (∀ p ∈ bp.Points, ∀ kv ∈ p.Fields,
        (kv.1 ∈ intLabels → kv.2.isInt = true) ∧
        (kv.1 ∈ floatLabels → kv.2.isFloat = true) ∧
        (kv.1 = "time" → kv.2.isTime = true) ∧
        (kv.1 = "value" → kv.2.isNumeric = true) ∧
        (kv.1 ∈ intLabels ∨ kv.1 ∈ floatLabels ∨ kv.1 = "time" ∨ kv.1 = "value")) ∧
      (∀ (name : String) (metric : Gauge) (clock : Clock),
        ∀ p ∈ contribution name (.Gauge metric) clock,
          p.Fields = [("value", .int64 metric.Value)]) ∧
      (∀ (name : String) (metric : GaugeFloat64) (clock : Clock),
        ∀ p ∈ contribution name (.GaugeFloat64 metric) clock,
          p.Fields = [("value", .float64 metric.Value)]) :=
  ⟨by decide, send_field_types sampleRegistry "metrics" sampleClient sampleWorld (by decide)⟩

/-! ## Lemmas on consecutive cycles -/

theorem visited_eq (name : String) (i : Instrument) (clock : Clock) (hi : i.answersRanks) :
    visited name i clock = i.afterVisit := by
  cases i with
  | Histogram metric =>
    obtain ⟨a, b, c, d, e, rest, hps⟩ :=
      exists_five_of_length ((metric.snapshots metric.taken).Percentiles ranks) hi
    simp [visit, visited, Histogram.Snapshot, Clock.Now, hps, index, Except.bind,
      Instrument.afterVisit]
  | Timer metric =>
    obtain ⟨a, b, c, d, e, rest, hps⟩ :=
      exists_five_of_length ((metric.snapshots metric.taken).Percentiles ranks) hi
    simp [visit, visited, Timer.Snapshot, Clock.Now, hps, index, Except.bind,
      Instrument.afterVisit]
  | _ => simp [visit, visited, Meter.Snapshot, Clock.Now, Instrument.afterVisit]

theorem cycleRegistry_eq (r : Registry) (hr : r.answersRanks) (clock : Clock) :
    cycleRegistry r clock = r.afterCycle := by
  unfold cycleRegistry Registry.afterCycle
  have h : ∀ p ∈ r.enumFrom 0,
      (p.2.1, visited p.2.1 p.2.2 (clock.advance p.1)) =
        (fun e : String × Instrument => (e.1, e.2.afterVisit)) p.2 := by
    intro p hp
    obtain ⟨k, e⟩ := p
    have he : e ∈ r := (List.mem_enumFrom hp).2.2 ▸ List.getElem_mem _
    simp [visited_eq e.1 e.2 _ (hr e he)]
  rw [List.map_congr_left h]
  conv_rhs => rw [← List.enumFrom_map_snd 0 r, List.map_map]
  rfl

theorem answersRanks_of_always (r : Registry) (hr : r.alwaysAnswersRanks) :
    r.answersRanks := by
  intro e he
  have h := hr e he
  obtain ⟨name, i⟩ := e
  cases i <;> first | trivial | exact h _

theorem always_afterCycle (r : Registry) (hr : r.alwaysAnswersRanks) :
    Registry.alwaysAnswersRanks r.afterCycle := by
  intro e he
  obtain ⟨x, hx, rfl⟩ := List.mem_map.1 he
  have h := hr x hx
  obtain ⟨name, i⟩ := x
  cases i <;> exact h

theorem length_afterCycle (r : Registry) : r.afterCycle.length = r.length := by
  simp [Registry.afterCycle]

theorem length_cycleBatches (n : Nat) (r : Registry) (database : String) (clock : Clock) :
    (cycleBatches n r database clock).length = n := by
  induction n generalizing r clock with
  | zero => rfl
  | succ n ih => simp [cycleBatches, ih]

theorem exportLoop_eq (n : Nat) (r : Registry) (hr : r.alwaysAnswersRanks)
    (database : String) (c : Client) (w : World) :
    ∃ fin cl, exportLoop n r database c w = .ok fin ∧ fin.client = some cl ∧
      cl.outcome = c.outcome ∧
      cl.written = c.written ++ cycleBatches n r database w.clock := by
  induction n generalizing r c w with
  | zero => exact ⟨_, c, rfl, rfl, rfl, by simp [cycleBatches]⟩
  | succ n ih =>
    obtain ⟨res, hres, herr, hreg, hout, hwr, hclock⟩ :=
      send_eq r (answersRanks_of_always r hr) database c w
    rw [cycleRegistry_eq r (answersRanks_of_always r hr)] at hreg
    obtain ⟨fin, cl, hfin, hcl, hcout, hcw⟩ :=
      ih r.afterCycle (always_afterCycle r hr) res.client res.world
    refine ⟨fin, cl, ?_, hcl, hcout.trans hout, ?_⟩
    · simp only [exportLoop, hres, herr, hreg]
      exact hfin
    · rw [hcw, hwr, hclock]
      simp [cycleBatches]

/-- C12: whatever the write client answers, `send` completes and returns nil;
and over `n` ticks the loop of `Influxdb` runs exactly `n` export cycles, each
handing its own batch to `Write`: the batches are those of `cycleBatches`,
which do not depend on any answer of the client, so a cycle runs unchanged
also when every earlier write failed (two runs with different clients, and
different logs, write the same batches). -/
theorem send_returns_nil_and_loop_runs_every_tick :
    (∀ (r : Registry) (database : String) (c : Client) (w : World), r.answersRanks →
      ∃ res, send r database c w = .ok res ∧ res.err = none) ∧
    (∀ (n : Nat) (r : Registry) (database : String) (c : Client) (w : World),
      r.alwaysAnswersRanks →
      ∃ fin cl, exportLoop n r database c w = .ok fin ∧ fin.client = some cl ∧
        cl.written = c.written ++ cycleBatches n r database w.clock ∧
        (cycleBatches n r database w.clock).length = n) ∧
    (∀ (n : Nat) (r : Registry) (database : String) (c c' : Client) (w w' : World),
      r.alwaysAnswersRanks → c'.written = c.written → w'.clock = w.clock →
      ∃ fin fin' cl cl', exportLoop n r database c w = .ok fin ∧
        exportLoop n r database c' w' = .ok fin' ∧
        fin.client = some cl ∧ fin'.client = some cl' ∧
        cl'.written = cl.written) := by
  refine ⟨?_, ?_, ?_⟩
  · intro r database c w hr
    obtain ⟨res, hres, herr, _⟩ := send_eq r hr database c w
    exact ⟨res, hres, herr⟩
  · intro n r database c w hr
    obtain ⟨fin, cl, hfin, hcl, _, hw⟩ := exportLoop_eq n r hr database c w
    exact ⟨fin, cl, hfin, hcl, hw, length_cycleBatches n r database w.clock⟩
  · intro n r database c c' w w' hr hc hw
    obtain ⟨fin, cl, hfin, hcl, _, hwr⟩ := exportLoop_eq n r hr database c w
    obtain ⟨fin', cl', hfin', hcl', _, hwr'⟩ := exportLoop_eq n r hr database c' w'
    exact ⟨fin, fin', cl, cl', hfin, hfin', hcl, hcl', by rw [hwr', hwr, hc, hw]⟩

/-- Witness of C12: three ticks over the sample enumeration with a client
whose every write fails give three batches, the same three as with a client
whose every write succeeds. -/
theorem send_returns_nil_and_loop_runs_every_tick_witness :
    sampleRegistry.answersRanks ∧
    (∃ res, send sampleRegistry "metrics" failingClient sampleWorld = .ok res ∧
      res.err = none) ∧
    (∃ fin cl, exportLoop 3 sampleRegistry "metrics" failingClient sampleWorld = .ok fin ∧
      fin.client = some cl ∧
      cl.written = failingClient.written ++
        cycleBatches 3 sampleRegistry "metrics" sampleWorld.clock ∧
      (cycleBatches 3 sampleRegistry "metrics" sampleWorld.clock).length = 3) ∧
    (∃ fin fin' cl cl',
      exportLoop 3 sampleRegistry "metrics" sampleClient sampleWorld = .ok fin ∧
      exportLoop 3 sampleRegistry "metrics" failingClient sampleWorld = .ok fin' ∧
      fin.client = some cl ∧ fin'.client = some cl' ∧
      cl'.written = cl.written) := by
  have hr : sampleRegistry.alwaysAnswersRanks := by
    intro e he
    simp only [sampleRegistry, List.mem_cons, List.mem_singleton, List.not_mem_nil,
      or_false] at he
    rcases he with h | h | h | h | h | h | h | h <;> subst h <;>
      simp [Instrument.alwaysAnswersRanks, sampleHistogram, sampleTimer, ranks]
  exact ⟨by decide,
    send_returns_nil_and_loop_runs_every_tick.1 sampleRegistry "metrics" failingClient
      sampleWorld (by decide),
    send_returns_nil_and_loop_runs_every_tick.2.1 3 sampleRegistry "metrics" failingClient
      sampleWorld hr,
    send_returns_nil_and_loop_runs_every_tick.2.2 3 sampleRegistry "metrics" sampleClient
      failingClient sampleWorld sampleWorld hr rfl rfl⟩

/-- C13: one call of `send` issues exactly one call of `Write`, whatever the
registry holds and whatever the client answers: the record of writes grows by
exactly one batch, which is the batch built from the `series` of this cycle's
enumeration; an error answer is logged and not retried; when no instrument is
supported the batch is empty and is written all the same. -/
theorem send_writes_exactly_once (r : Registry) (database : String) (c : Client) (w : World)
    (hr : r.answersRanks) :
    ∃ res r1 clock series,
      r.Each visit (w.clock, []) = .ok (r1, clock, series) ∧
      send r database c w = .ok res ∧
      res.client.written =
        c.written ++ [{ Points := series, Database := database, Precision := "ms" }] ∧
      res.client.written.length = c.written.length + 1 ∧
      res.client.outcome = c.outcome ∧
      (∀ err, c.outcome c.written.length
          { Points := series, Database := database, Precision := "ms" } = some err →
        res.world.logged = w.logged ++ [err]) ∧
      (c.outcome c.written.length
          { Points := series, Database := database, Precision := "ms" } = none →
        res.world.logged = w.logged) ∧
      (r.countP (fun e => e.2.supported) = 0 → series = []) := by
  have hlen := cyclePoints_length r hr w.clock
  have key : ∃ res, send r database c w = .ok res ∧
      res.client.written = c.written ++
        [{ Points := cyclePoints r w.clock, Database := database, Precision := "ms" }] ∧
      res.client.outcome = c.outcome ∧
      (∀ err, c.outcome c.written.length
          { Points := cyclePoints r w.clock, Database := database, Precision := "ms" } =
            some err →
        res.world.logged = w.logged ++ [err]) ∧
      (c.outcome c.written.length
          { Points := cyclePoints r w.clock, Database := database, Precision := "ms" } = none →
        res.world.logged = w.logged) := by
    unfold send
    rw [each_visit_eq r hr w.clock]
    simp only [Client.Write]
    split
    · rename_i err c' heq
      simp only [Prod.mk.injEq] at heq
      refine ⟨_, rfl, ?_, ?_, ?_, ?_⟩
      · simp [← heq.2]
      · simp [← heq.2]
      · intro err' herr
        rw [heq.1] at herr
        simp only [Option.some.injEq] at herr
        simp [World.Println, herr]
      · intro hnone
        rw [heq.1] at hnone
        simp at hnone
    · rename_i c' heq
      simp only [Prod.mk.injEq] at heq
      refine ⟨_, rfl, ?_, ?_, ?_, ?_⟩
      · simp [← heq.2]
      · simp [← heq.2]
      · intro err' herr
        rw [heq.1] at herr
        simp at herr
      · intro _
        rfl
  obtain ⟨res, h1, h2, h3, h4, h5⟩ := key
  exact ⟨res, _, _, _, each_visit_eq r hr w.clock, h1, h2, by simp [h2], h3, h4, h5,
    fun h0 => List.length_eq_zero.1 (hlen.trans h0)⟩

/-- Witness of C13: a registry that holds only an unsupported value, and a
client whose write fails: one empty batch is written, once. -/
theorem send_writes_exactly_once_witness :
    Registry.answersRanks [("health", .Other 0)] ∧
    ∃ res r1 clock series,
      Registry.Each visit [("health", .Other 0)] (sampleWorld.clock, []) =
        .ok (r1, clock, series) ∧
      send [("health", .Other 0)] "metrics" failingClient sampleWorld = .ok res ∧
      res.client.written =
        failingClient.written ++
          [{ Points := series, Database := "metrics", Precision := "ms" }] ∧
      res.client.written.length = failingClient.written.length + 1 ∧
      res.client.outcome = failingClient.outcome ∧
      (∀ err, failingClient.outcome failingClient.written.length
          { Points := series, Database := "metrics", Precision := "ms" } = some err →
        res.world.logged = sampleWorld.logged ++ [err]) ∧
      (failingClient.outcome failingClient.written.length
          { Points := series, Database := "metrics", Precision := "ms" } = none →
        res.world.logged = sampleWorld.logged) ∧
      (List.countP (fun e => e.2.supported) [("health", Instrument.Other 0)] = 0 →
        series = []) :=
  ⟨by decide,
   send_writes_exactly_once [("health", .Other 0)] "metrics" failingClient sampleWorld
     (by decide)⟩

/-! ## Lemmas on two cycles over an unchanged registry -/

theorem contribution_untimed (name : String) (i : Instrument) (clock clock' : Clock)
    (hi : i.answersRanks) (hs : i.steady) :
    (contribution name i.afterVisit clock').map Point.untimed =
      (contribution name i clock).map Point.untimed := by
  cases i with
  | Histogram metric =>
    obtain ⟨a, b, c, d, e, rest, hps⟩ :=
      exists_five_of_length ((metric.snapshots metric.taken).Percentiles ranks) hi
    have hs' : metric.snapshots (metric.taken + 1) = metric.snapshots metric.taken := hs
    simp [visit, contribution, Histogram.Snapshot, Clock.Now, hs', hps, index, Except.bind,
      Instrument.afterVisit, Point.untimed, Fields.keys]
  | Timer metric =>
    obtain ⟨a, b, c, d, e, rest, hps⟩ :=
      exists_five_of_length ((metric.snapshots metric.taken).Percentiles ranks) hi
    have hs' : metric.snapshots (metric.taken + 1) = metric.snapshots metric.taken := hs
    simp [visit, contribution, Timer.Snapshot, Clock.Now, hs', hps, index, Except.bind,
      Instrument.afterVisit, Point.untimed, Fields.keys]
  | Meter metric =>
    have hs' : metric.snapshots (metric.taken + 1) = metric.snapshots metric.taken := hs
    simp [visit, contribution, Meter.Snapshot, Clock.Now, hs', Instrument.afterVisit,
      Point.untimed, Fields.keys]
  | _ => simp [visit, contribution, Clock.Now, Instrument.afterVisit, Point.untimed,
      Fields.keys]

theorem answersRanks_afterCycle (r : Registry) (hr : r.answersRanks) (hs : r.steady) :
    Registry.answersRanks r.afterCycle := by
  intro e he
  obtain ⟨x, hx, rfl⟩ := List.mem_map.1 he
  have h := hr x hx
  have h2 := hs x hx
  obtain ⟨name, i⟩ := x
  cases i with
  | Histogram metric =>
    have h3 : metric.snapshots (metric.taken + 1) = metric.snapshots metric.taken := h2
    simpa [Instrument.answersRanks, Instrument.afterVisit, h3] using h
  | Timer metric =>
    have h3 : metric.snapshots (metric.taken + 1) = metric.snapshots metric.taken := h2
    simpa [Instrument.answersRanks, Instrument.afterVisit, h3] using h
  | _ => trivial

theorem cyclePoints_cons (e : String × Instrument) (rest : Registry) (clock : Clock) :
    cyclePoints (e :: rest) clock =
      contribution e.1 e.2 clock ++ cyclePoints rest (clock.advance 1) := by
  have h := cyclePoints_split [] e.1 e.2 rest clock
  simpa [cyclePoints, Clock.advance] using h

theorem cyclePoints_untimed (r : Registry) (hr : r.answersRanks) (hs : r.steady)
    (clock clock' : Clock) :
    (cyclePoints r.afterCycle clock').map Point.untimed =
      (cyclePoints r clock).map Point.untimed := by
  induction r generalizing clock clock' with
  | nil => rfl
  | cons e rest ih =>
    have hrest : Registry.answersRanks rest := fun x hx => hr x (List.mem_cons_of_mem _ hx)
    have hsrest : Registry.steady rest := fun x hx => hs x (List.mem_cons_of_mem _ hx)
    have hcons : Registry.afterCycle (e :: rest) =
        (e.1, e.2.afterVisit) :: Registry.afterCycle rest := rfl
    rw [hcons, cyclePoints_cons, cyclePoints_cons, List.map_append, List.map_append,
      ih hrest hsrest (clock.advance 1) (clock'.advance 1),
      contribution_untimed e.1 e.2 clock clock' (hr e (List.mem_cons_self _ _))
        (hs e (List.mem_cons_self _ _))]

theorem mem_cyclePoints_at (r : Registry) (clock : Clock) (p : Point)
    (hp : p ∈ cyclePoints r clock) :
    ∃ k name i, r[k]? = some (name, i) ∧ p ∈ contribution name i (clock.advance k) := by
  unfold cyclePoints at hp
  obtain ⟨x, hx, hpx⟩ := List.mem_flatMap.1 hp
  obtain ⟨k, name, i⟩ := x
  obtain ⟨_, hlt, he⟩ := List.mem_enumFrom hx
  refine ⟨k, name, i, ?_, hpx⟩
  rw [List.getElem?_eq_getElem (by omega), he]
  simp

theorem contribution_time (name : String) (i : Instrument) (clock : Clock)
    (hi : i.answersRanks) (p : Point) (hp : p ∈ contribution name i clock)
    (v : Value) (hv : p.Fields.get "time" = some v) :
    v = .time (clock.instant 0) ∧ p.Timestamp = clock.instant 0 := by
  cases i with
  | Histogram metric =>
    obtain ⟨a, b, c, d, e, rest, hps⟩ :=
      exists_five_of_length ((metric.snapshots metric.taken).Percentiles ranks) hi
    simp [visit, contribution, Histogram.Snapshot, Clock.Now, hps, index, Except.bind] at hp
    subst hp
    simp [Fields.get] at hv
  | Timer metric =>
    obtain ⟨a, b, c, d, e, rest, hps⟩ :=
      exists_five_of_length ((metric.snapshots metric.taken).Percentiles ranks) hi
    simp [visit, contribution, Timer.Snapshot, Clock.Now, hps, index, Except.bind] at hp
    subst hp
    simp [Fields.get] at hv
  | Counter metric =>
    simp [visit, contribution, Clock.Now] at hp
    subst hp
    simp [Fields.get] at hv
    simp [← hv, Clock.instant]
  | Gauge metric =>
    simp [visit, contribution, Clock.Now] at hp
    subst hp
    simp [Fields.get] at hv
  | GaugeFloat64 metric =>
    simp [visit, contribution, Clock.Now] at hp
    subst hp
    simp [Fields.get] at hv
  | Meter metric =>
    simp [visit, contribution, Meter.Snapshot, Clock.Now] at hp
    subst hp
    simp [Fields.get] at hv
  | Other tag =>
    simp [visit, contribution, Clock.Now] at hp

theorem cyclePoints_time (r : Registry) (hr : r.answersRanks) (clock : Clock) (p : Point)
    (hp : p ∈ cyclePoints r clock) (v : Value) (hv : p.Fields.get "time" = some v) :
    ∃ k name i, r[k]? = some (name, i) ∧ p ∈ contribution name i (clock.advance k) ∧
      v = .time (clock.instant k) ∧ p.Timestamp = clock.instant k := by
  obtain ⟨k, name, i, hk, hpk⟩ := mem_cyclePoints_at r clock p hp
  have hi : i.answersRanks := hr (name, i) (List.getElem?_mem hk)
  have h := contribution_time name i (clock.advance k) hi p hpk v hv
  refine ⟨k, name, i, hk, hpk, ?_, ?_⟩
  · simpa [Clock.instant, Clock.advance] using h.1
  · simpa [Clock.instant, Clock.advance] using h.2

theorem get_filter_time (m : Fields) (label : String) (hl : label ≠ "time") :
    Fields.get (m.filter fun kv => kv.1 != "time") label = Fields.get m label := by
  induction m with
  | nil => rfl
  | cons kv rest ih =>
    unfold Fields.get at ih ⊢
    by_cases hk : kv.1 = "time"
    · have hne : ¬ kv.1 = label := fun h => hl (h ▸ hk)
      rw [List.filter_cons_of_neg (by simp [hk]), List.find?_cons_of_neg _ (by simp [hne]), ih]
    · rw [List.filter_cons_of_pos (by simp [hk])]
      by_cases hkl : kv.1 = label
      · rw [List.find?_cons_of_pos _ (by simp [hkl]), List.find?_cons_of_pos _ (by simp [hkl])]
      · rw [List.find?_cons_of_neg _ (by simp [hkl]), List.find?_cons_of_neg _ (by simp [hkl]),
          ih]

/-- C14, as stated, fails: two consecutive cycles over a registry that holds
one Counter, whose count does not change, give two points with different field
maps, because the field "time" holds the sampling instant of each cycle. -/
theorem consecutive_cycles_differ_in_time_field :
    ∃ res1 res2 b1 b2,
      send [("requests", .Counter ⟨42⟩)] "metrics" sampleClient sampleWorld = .ok res1 ∧
      send res1.registry "metrics" res1.client res1.world = .ok res2 ∧
      res2.client.written = [b1, b2] ∧
      b1.Points.map Point.Name = b2.Points.map Point.Name ∧
      b1.Points.map Point.Fields ≠ b2.Points.map Point.Fields :=
  ⟨_, _, _, _, rfl, rfl, rfl, rfl, by decide⟩

/-- C14, amended: two consecutive export cycles over an unchanged registry
(same enumeration, every reading steady) give two batches with the same
database, the same precision, the same number of points, in the same order
with the same names and the same field keys, and, for every point, the same
value under every label other than "time", the point timestamps being
disregarded.  The value a point holds under "time" (a Counter's point holds
one) is the instant captured at the visit that produced the point, in its own
cycle, and it is that point's timestamp: for a registry of `n` pairs, the
`k`-th visit of the first cycle reads clock reading number `k` and the `k`-th
visit of the second cycle reads clock reading number `n + k`. -/
theorem consecutive_cycles_agree_up_to_time (r : Registry) (database : String) (c : Client)
    (w : World) (hr : r.answersRanks) (hs : r.steady) :
    ∃ res1 res2 b1 b2,
      send r database c w = .ok res1 ∧
      send res1.registry database res1.client res1.world = .ok res2 ∧
      res1.registry.map Prod.fst = r.map Prod.fst ∧
      res2.client.written = c.written ++ [b1, b2] ∧
      b1.Database = b2.Database ∧ b1.Precision = b2.Precision ∧
      b1.Points.length = b2.Points.length ∧
      b1.Points.map Point.Name = b2.Points.map Point.Name ∧
      b1.Points.map Point.untimed = b2.Points.map Point.untimed ∧
      (∀ (k : Nat) (p1 p2 : Point), b1.Points[k]? = some p1 → b2.Points[k]? = some p2 →
        p1.Fields.keys = p2.Fields.keys ∧
        ∀ label, label ≠ "time" → p1.Fields.get label = p2.Fields.get label) ∧
      res1.world.clock = w.clock.advance r.length ∧
      (∀ p ∈ b1.Points, ∀ v, p.Fields.get "time" = some v →
        ∃ k name i, r[k]? = some (name, i) ∧
          p ∈ contribution name i (w.clock.advance k) ∧
          v = .time (w.clock.instant k) ∧ p.Timestamp = w.clock.instant k) ∧
      (∀ p ∈ b2.Points, ∀ v, p.Fields.get "time" = some v →
        ∃ k name i, res1.registry[k]? = some (name, i) ∧
          p ∈ contribution name i (res1.world.clock.advance k) ∧
          v = .time (w.clock.instant (r.length + k)) ∧
          p.Timestamp = w.clock.instant (r.length + k)) ∧
      (∀ (name : String) (metric : Counter) (clock : Clock),
        ∀ p ∈ contribution name (.Counter metric) clock,
          p.Fields.get "time" = some (.time (clock.instant 0))) := by
  obtain ⟨res1, hres1, _, hreg1, _, hw1, hc1⟩ := send_eq r hr database c w
  rw [cycleRegistry_eq r hr] at hreg1
  obtain ⟨res2, hres2, _, _, _, hw2, _⟩ :=
    send_eq r.afterCycle (answersRanks_afterCycle r hr hs) database res1.client res1.world
  have hunt := cyclePoints_untimed r hr hs w.clock res1.world.clock
  refine ⟨res1, res2,
    { Points := cyclePoints r w.clock, Database := database, Precision := "ms" },
    { Points := cyclePoints r.afterCycle res1.world.clock, Database := database,
      Precision := "ms" },
    hres1, hreg1 ▸ hres2, ?_, ?_, rfl, rfl, ?_, ?_, hunt.symm, ?_, hc1, ?_, ?_, ?_⟩
  · rw [hreg1]
    simp [Registry.afterCycle, Function.comp_def]
  · rw [hw2, hw1]
    simp
  · have h := congrArg List.length hunt
    simpa using h.symm
  · have h := congrArg (List.map Prod.fst) hunt
    simp only [List.map_map] at h
    exact h.symm
  · intro k p1 p2 h1 h2
    have h := congrArg (fun l => l[k]?) hunt
    simp only [List.getElem?_map] at h
    simp only at h1 h2
    rw [h1, h2] at h
    simp only [Option.map_some', Option.some.injEq, Point.untimed, Prod.mk.injEq] at h
    refine ⟨h.2.1.symm, fun label hl => ?_⟩
    rw [← get_filter_time p1.Fields label hl, ← get_filter_time p2.Fields label hl, h.2.2]
  · intro p hp v hv
    exact cyclePoints_time r hr w.clock p hp v hv
  · intro p hp v hv
    obtain ⟨k, name, i, hk, hpk, hv', ht⟩ :=
      cyclePoints_time r.afterCycle (answersRanks_afterCycle r hr hs) res1.world.clock p hp v hv
    have hinst : res1.world.clock.instant k = w.clock.instant (r.length + k) := by
      rw [hc1]
      simp [Clock.instant, Clock.advance, Nat.add_assoc]
    exact ⟨k, name, i, hreg1 ▸ hk, hpk, hinst ▸ hv', hinst ▸ ht⟩
  · intro name metric clock p hp
    simp [visit, contribution, Clock.Now] at hp
    subst hp
    simp [Fields.get, Clock.instant]

/-- Witness of C14 amended: the sample enumeration, whose snapshots are the
same at every call. -/
theorem consecutive_cycles_agree_up_to_time_witness :
    sampleRegistry.answersRanks ∧ sampleRegistry.steady ∧
    ∃ res1 res2 b1 b2,
      send sampleRegistry "metrics" sampleClient sampleWorld = .ok res1 ∧
      send res1.registry "metrics" res1.client res1.world = .ok res2 ∧
      res1.registry.map Prod.fst = sampleRegistry.map Prod.fst ∧
      res2.client.written = sampleClient.written ++ [b1, b2] ∧
      b1.Database = b2.Database ∧ b1.Precision = b2.Precision ∧
      b1.Points.length = b2.Points.length ∧
      b1.Points.map Point.Name = b2.Points.map Point.Name ∧
      b1.Points.map Point.untimed = b2.Points.map Point.untimed ∧
      (∀ (k : Nat) (p1 p2 : Point), b1.Points[k]? = some p1 → b2.Points[k]? = some p2 →
        p1.Fields.keys = p2.Fields.keys ∧
        ∀ label, label ≠ "time" → p1.Fields.get label = p2.Fields.get label) ∧
      res1.world.clock = sampleWorld.clock.advance sampleRegistry.length ∧
      (∀ p ∈ b1.Points, ∀ v, p.Fields.get "time" = some v →
        ∃ k name i, sampleRegistry[k]? = some (name, i) ∧
          p ∈ contribution name i (sampleWorld.clock.advance k) ∧
          v = .time (sampleWorld.clock.instant k) ∧ p.Timestamp = sampleWorld.clock.instant k) ∧
      (∀ p ∈ b2.Points, ∀ v, p.Fields.get "time" = some v →
        ∃ k name i, res1.registry[k]? = some (name, i) ∧
          p ∈ contribution name i (res1.world.clock.advance k) ∧
          v = .time (sampleWorld.clock.instant (sampleRegistry.length + k)) ∧
          p.Timestamp = sampleWorld.clock.instant (sampleRegistry.length + k)) ∧
      (∀ (name : String) (metric : Counter) (clock : Clock),
        ∀ p ∈ contribution name (.Counter metric) clock,
          p.Fields.get "time" = some (.time (clock.instant 0))) := by
  have hs : sampleRegistry.steady := by
    intro e he
    simp only [sampleRegistry, List.mem_cons, List.mem_singleton, List.not_mem_nil,
      or_false] at he
    rcases he with h | h | h | h | h | h | h | h <;> subst h <;>
      simp [Instrument.steady, sampleHistogram, sampleTimer, sampleMeter]
  exact ⟨by decide, hs,
    consecutive_cycles_agree_up_to_time sampleRegistry "metrics" sampleClient sampleWorld
      (by decide) hs⟩

/-- C15: when `url.Parse` fails on the host, or `client.NewClient` fails,
`Influxdb` logs the error and returns without running any export cycle,
however many ticks there are: the registry is as before (nothing enumerated,
no snapshot taken), the clock is not read and no client exists to write to;
when both succeed, `Influxdb` is the export loop over the ticks, run with the
constructed client and the configured database. -/
theorem setup_failure_runs_no_cycle (lib : Library) (r : Registry) (ticks : Nat)
    (config : Config) (w : World) :
    (∀ err, lib.Parse config.Host = .error err →
      Influxdb lib r ticks config w =
        .ok { registry := r, client := none,
              world := { clock := w.clock, logged := w.logged ++ [err] } }) ∧
    (∀ urlDB err, lib.Parse config.Host = .ok urlDB →
      lib.NewClient { URL := urlDB, Username := config.Username,
                      Password := config.Password } = .error err →
      Influxdb lib r ticks config w =
        .ok { registry := r, client := none,
              world := { clock := w.clock, logged := w.logged ++ [err] } }) ∧
    (∀ urlDB client, lib.Parse config.Host = .ok urlDB →
      lib.NewClient { URL := urlDB, Username := config.Username,
                      Password := config.Password } = .ok client →
      Influxdb lib r ticks config w = exportLoop ticks r config.Database client w ∧
      (r.alwaysAnswersRanks →
        ∃ fin cl, Influxdb lib r ticks config w = .ok fin ∧ fin.client = some cl ∧
          cl.written = client.written ++ cycleBatches ticks r config.Database w.clock)) := by
  refine ⟨?_, ?_, ?_⟩
  · intro err h
    simp [Influxdb, h, World.Println]
  · intro urlDB err h1 h2
    simp [Influxdb, h1, h2, World.Println]
  · intro urlDB client h1 h2
    have heq : Influxdb lib r ticks config w = exportLoop ticks r config.Database client w := by
      simp [Influxdb, h1, h2]
    refine ⟨heq, fun hr => ?_⟩
    obtain ⟨fin, cl, hfin, hcl, _, hw⟩ := exportLoop_eq ticks r hr config.Database client w
    exact ⟨fin, cl, heq.trans hfin, hcl, hw⟩

/-- Witness of C15: an empty host fails to parse, an empty user name fails the
client construction, and a full configuration starts the loop. -/
theorem setup_failure_runs_no_cycle_witness :
    (sampleLibrary.Parse (Config.mk "" "metrics" "user" "secret").Host = .error "empty url" ∧
      Influxdb sampleLibrary sampleRegistry 5 ⟨"", "metrics", "user", "secret"⟩ sampleWorld =
        .ok { registry := sampleRegistry, client := none,
              world := { clock := sampleWorld.clock,
                         logged := sampleWorld.logged ++ ["empty url"] } }) ∧
    (Influxdb sampleLibrary sampleRegistry 5 ⟨"http://db:8086", "metrics", "", "secret"⟩
        sampleWorld =
        .ok { registry := sampleRegistry, client := none,
              world := { clock := sampleWorld.clock,
                         logged := sampleWorld.logged ++ ["no user"] } }) ∧
    (Influxdb sampleLibrary sampleRegistry 5 ⟨"http://db:8086", "metrics", "user", "secret"⟩
        sampleWorld =
      exportLoop 5 sampleRegistry "metrics" sampleClient sampleWorld) :=
  ⟨⟨rfl,
    (setup_failure_runs_no_cycle sampleLibrary sampleRegistry 5
      ⟨"", "metrics", "user", "secret"⟩ sampleWorld).1 "empty url" rfl⟩,
   (setup_failure_runs_no_cycle sampleLibrary sampleRegistry 5
      ⟨"http://db:8086", "metrics", "", "secret"⟩ sampleWorld).2.1
      ⟨"http://db:8086"⟩ "no user" rfl rfl,
   ((setup_failure_runs_no_cycle sampleLibrary sampleRegistry 5
      ⟨"http://db:8086", "metrics", "user", "secret"⟩ sampleWorld).2.2
      ⟨"http://db:8086"⟩ sampleClient rfl rfl).1⟩

/-! ## Lemmas on point names -/

theorem reverse_take_suffix (n s : String) (hs : s ∈ suffixes) :
    (n ++ s).data.reverse.take 6 = s.data.reverse.take 6 := by
  simp only [suffixes, List.mem_cons, List.mem_singleton, List.not_mem_nil, or_false] at hs
  rcases hs with h | h | h | h | h <;> subst h <;>
    simp [String.data_append, List.reverse_append]

theorem append_suffix_inj (n1 n2 s1 s2 : String) (h1 : s1 ∈ suffixes) (h2 : s2 ∈ suffixes)
    (h : n1 ++ s1 = n2 ++ s2) : n1 = n2 := by
  have ht : s1.data.reverse.take 6 = s2.data.reverse.take 6 := by
    rw [← reverse_take_suffix n1 s1 h1, ← reverse_take_suffix n2 s2 h2, h]
  have hs : s1 = s2 := by
    simp only [suffixes, List.mem_cons, List.mem_singleton, List.not_mem_nil, or_false] at h1 h2
    rcases h1 with h1 | h1 | h1 | h1 | h1 <;> rcases h2 with h2 | h2 | h2 | h2 | h2 <;>
      subst h1 <;> subst h2 <;> first | rfl | (exfalso; revert ht; decide)
  subst hs
  have hd := congrArg String.data h
  simp only [String.data_append] at hd
  exact String.ext (List.append_cancel_right hd)

theorem contribution_nil_of_not_answersRanks (name : String) (i : Instrument) (clock : Clock)
    (hi : ¬ i.answersRanks) : contribution name i clock = [] := by
  cases i with
  | Histogram metric =>
    have hshort : ¬ 5 ≤ ((metric.snapshots metric.taken).Percentiles ranks).length := hi
    unfold contribution visit
    simp only [Histogram.Snapshot, Clock.Now]
    generalize (metric.snapshots metric.taken).Percentiles ranks = ps at hshort
    rcases ps with _ | ⟨a, _ | ⟨b, _ | ⟨c, _ | ⟨d, _ | ⟨e, rest⟩⟩⟩⟩⟩ <;>
      simp [index, Except.bind] at hshort ⊢
  | Timer metric =>
    have hshort : ¬ 5 ≤ ((metric.snapshots metric.taken).Percentiles ranks).length := hi
    unfold contribution visit
    simp only [Timer.Snapshot, Clock.Now]
    generalize (metric.snapshots metric.taken).Percentiles ranks = ps at hshort
    rcases ps with _ | ⟨a, _ | ⟨b, _ | ⟨c, _ | ⟨d, _ | ⟨e, rest⟩⟩⟩⟩⟩ <;>
      simp [index, Except.bind] at hshort ⊢
  | _ => exact absurd trivial hi

theorem contribution_name (name : String) (i : Instrument) (clock : Clock) (p : Point)
    (hp : p ∈ contribution name i clock) : ∃ s ∈ suffixes, p.Name = name ++ s := by
  by_cases hi : i.answersRanks
  · cases i with
    | Histogram metric =>
      obtain ⟨a, b, c, d, e, rest, hps⟩ :=
        exists_five_of_length ((metric.snapshots metric.taken).Percentiles ranks) hi
      simp [visit, contribution, Histogram.Snapshot, Clock.Now, hps, index, Except.bind] at hp
      subst hp
      exact ⟨".histogram", by simp [suffixes], rfl⟩
    | Timer metric =>
      obtain ⟨a, b, c, d, e, rest, hps⟩ :=
        exists_five_of_length ((metric.snapshots metric.taken).Percentiles ranks) hi
      simp [visit, contribution, Timer.Snapshot, Clock.Now, hps, index, Except.bind] at hp
      subst hp
      exact ⟨".timer", by simp [suffixes], rfl⟩
    | Counter metric =>
      simp [visit, contribution, Clock.Now] at hp
      subst hp
      exact ⟨".count", by simp [suffixes], rfl⟩
    | Gauge metric =>
      simp [visit, contribution, Clock.Now] at hp
      subst hp
      exact ⟨".value", by simp [suffixes], rfl⟩
    | GaugeFloat64 metric =>
      simp [visit, contribution, Clock.Now] at hp
      subst hp
      exact ⟨".value", by simp [suffixes], rfl⟩
    | Meter metric =>
      simp [visit, contribution, Meter.Snapshot, Clock.Now] at hp
      subst hp
      exact ⟨".meter", by simp [suffixes], rfl⟩
    | Other tag =>
      simp [visit, contribution, Clock.Now] at hp
  · rw [contribution_nil_of_not_answersRanks name i clock hi] at hp
    simp at hp

theorem contribution_names_ne (n1 n2 : String) (i1 i2 : Instrument) (clock1 clock2 : Clock)
    (p1 p2 : Point) (hn : n1 ≠ n2) (h1 : p1 ∈ contribution n1 i1 clock1)
    (h2 : p2 ∈ contribution n2 i2 clock2) : p1.Name ≠ p2.Name := by
  obtain ⟨s1, hs1, e1⟩ := contribution_name n1 i1 clock1 p1 h1
  obtain ⟨s2, hs2, e2⟩ := contribution_name n2 i2 clock2 p2 h2
  intro h
  rw [e1, e2] at h
  exact hn (append_suffix_inj n1 n2 s1 s2 hs1 hs2 h)

theorem cyclePoints_names_nodup (r : Registry) (hr : r.answersRanks)
    (hn : (r.map Prod.fst).Nodup) (clock : Clock) :
    ((cyclePoints r clock).map Point.Name).Nodup := by
  induction r generalizing clock with
  | nil => simp [cyclePoints]
  | cons e rest ih =>
    have hrest : Registry.answersRanks rest := fun x hx => hr x (List.mem_cons_of_mem _ hx)
    rw [List.map_cons, List.nodup_cons] at hn
    rw [cyclePoints_cons, List.map_append, List.nodup_append]
    refine ⟨?_, ih hrest hn.2 _, ?_⟩
    · have hlen := contribution_length e.1 e.2 clock (hr e (List.mem_cons_self _ _))
      have hle : ((contribution e.1 e.2 clock).map Point.Name).length ≤ 1 := by
        rw [List.length_map, hlen]
        split <;> omega
      match hm : (contribution e.1 e.2 clock).map Point.Name, hle with
      | [], _ => exact List.nodup_nil
      | [a], _ => exact List.nodup_singleton a
    · intro a ha hb
      obtain ⟨p1, hp1, rfl⟩ := List.mem_map.1 ha
      obtain ⟨p2, hp2, heq⟩ := List.mem_map.1 hb
      obtain ⟨x, hx, k, hpx⟩ := mem_cyclePoints rest _ p2 hp2
      have hne : e.1 ≠ x.1 := fun h => hn.1 (h ▸ List.mem_map_of_mem Prod.fst hx)
      exact contribution_names_ne e.1 x.1 e.2 x.2 _ _ p1 p2 hne hp1 hpx heq.symm

/-- C16: every point `send` produces for a pair is named by the metric name
followed by one of the five suffixes; no suffix is a suffix of another; hence
the points of two pairs with different metric names have different names, and
the batch of a registry with pairwise distinct metric names has pairwise
distinct point names. -/
theorem point_names_distinct :
    (∀ (name : String) (i : Instrument) (clock : Clock), ∀ p ∈ contribution name i clock,
      ∃ s ∈ suffixes, p.Name = name ++ s) ∧
    (∀ s ∈ suffixes, ∀ t ∈ suffixes, s ≠ t → ¬ s.data <:+ t.data) ∧
    (∀ (n1 n2 : String) (i1 i2 : Instrument) (clock1 clock2 : Clock) (p1 p2 : Point),
      n1 ≠ n2 → p1 ∈ contribution n1 i1 clock1 → p2 ∈ contribution n2 i2 clock2 →
      p1.Name ≠ p2.Name) ∧
    (∀ (r : Registry) (database : String) (c : Client) (w : World),
      r.answersRanks → (r.map Prod.fst).Nodup →
      ∃ res bp, send r database c w = .ok res ∧
        res.client.written = c.written ++ [bp] ∧
        (bp.Points.map Point.Name).Nodup) := by
  refine ⟨contribution_name, by decide, contribution_names_ne, ?_⟩
  intro r database c w hr hn
  obtain ⟨res, hres, _, _, _, hw, _⟩ := send_eq r hr database c w
  exact ⟨res, _, hres, hw, cyclePoints_names_nodup r hr hn w.clock⟩

/-- Witness of C16: the sample enumeration has pairwise distinct metric names,
and so has its batch; "a.b" as a Gauge and "a" as a Counter get different
point names. -/
theorem point_names_distinct_witness :
    sampleRegistry.answersRanks ∧ (sampleRegistry.map Prod.fst).Nodup ∧
    (∃ res bp, send sampleRegistry "metrics" sampleClient sampleWorld = .ok res ∧
      res.client.written = sampleClient.written ++ [bp] ∧
      (bp.Points.map Point.Name).Nodup) ∧
    (∀ p1 p2 : Point, "a.b" ≠ "a" →
      p1 ∈ contribution "a.b" (.Gauge ⟨1⟩) sampleClock →
      p2 ∈ contribution "a" (.Counter ⟨2⟩) sampleClock → p1.Name ≠ p2.Name) :=
  ⟨by decide, by decide,
   point_names_distinct.2.2.2 sampleRegistry "metrics" sampleClient sampleWorld
     (by decide) (by decide),
   fun p1 p2 => point_names_distinct.2.2.1 "a.b" "a" (.Gauge ⟨1⟩) (.Counter ⟨2⟩)
     sampleClock sampleClock p1 p2⟩

/-- C17: the rank list requested in the Histogram and in the Timer case has
exactly five elements; when the snapshot of every Histogram and Timer of the
enumeration returns one value per requested rank, each of the five reads
`ps[0]` to `ps[4]` is in bounds, and `send` does not panic. -/
theorem send_index_reads_in_bounds (r : Registry) (database : String) (c : Client)
    (w : World) (hr : ∀ e ∈ r, e.2.returnsOnePerRank) :
    ranks.length = 5 ∧
    (∀ (name : String) (metric : Histogram), (name, Instrument.Histogram metric) ∈ r →
      ∀ k, k < 5 → ∃ v, index ((metric.snapshots metric.taken).Percentiles ranks) k = .ok v) ∧
    (∀ (name : String) (metric : Timer), (name, Instrument.Timer metric) ∈ r →
      ∀ k, k < 5 → ∃ v, index ((metric.snapshots metric.taken).Percentiles ranks) k = .ok v) ∧
    ∃ res, send r database c w = .ok res := by
  have hidx : ∀ (ps : List Float64), ps.length = 5 → ∀ k, k < 5 → ∃ v, index ps k = .ok v := by
    intro ps hlen k hk
    obtain ⟨a, b, c, d, e, rest, rfl⟩ := exists_five_of_length ps (by omega)
    interval_cases k <;> simp [index]
  have hans : r.answersRanks := by
    intro e he
    have h := hr e he
    obtain ⟨name, i⟩ := e
    cases i with
    | Histogram metric => exact Nat.le_of_eq (h ranks).symm
    | Timer metric => exact Nat.le_of_eq (h ranks).symm
    | _ => trivial
  refine ⟨rfl, ?_, ?_, ?_⟩
  · intro name metric hm k hk
    exact hidx _ ((hr _ hm) ranks) k hk
  · intro name metric hm k hk
    exact hidx _ ((hr _ hm) ranks) k hk
  · obtain ⟨res, hres, _⟩ := send_eq r hans database c w
    exact ⟨res, hres⟩

/-- Witness of C17: a histogram and a timer whose `Percentiles` maps every
rank to one value. -/
theorem send_index_reads_in_bounds_witness :
    (∀ e ∈ ([("sizes", .Histogram sampleHistogram), ("latency", .Timer sampleTimer)] :
        Registry), e.2.returnsOnePerRank) ∧
    ranks.length = 5 ∧
    (∀ (name : String) (metric : Histogram),
      (name, Instrument.Histogram metric) ∈
        ([("sizes", .Histogram sampleHistogram), ("latency", .Timer sampleTimer)] : Registry) →
      ∀ k, k < 5 → ∃ v, index ((metric.snapshots metric.taken).Percentiles ranks) k = .ok v) ∧
    (∀ (name : String) (metric : Timer),
      (name, Instrument.Timer metric) ∈
        ([("sizes", .Histogram sampleHistogram), ("latency", .Timer sampleTimer)] : Registry) →
      ∀ k, k < 5 → ∃ v, index ((metric.snapshots metric.taken).Percentiles ranks) k = .ok v) ∧
    ∃ res, send [("sizes", .Histogram sampleHistogram), ("latency", .Timer sampleTimer)]
      "metrics" sampleClient sampleWorld = .ok res := by
  have hr : ∀ e ∈ ([("sizes", .Histogram sampleHistogram), ("latency", .Timer sampleTimer)] :
      Registry), e.2.returnsOnePerRank := by
    intro e he
    simp only [List.mem_cons, List.mem_singleton, List.not_mem_nil, or_false] at he
    rcases he with h | h <;> subst h <;>
      simp [Instrument.returnsOnePerRank, sampleHistogram, sampleTimer]
  exact ⟨hr, send_index_reads_in_bounds _ "metrics" sampleClient sampleWorld hr⟩

end Influxdb
